import Mathlib

/-
Verification of the orgcal one-way org-to-CalDAV synchronizer.

This file gives a shallow embedding, in Lean, of the parts of the program
that the specification talks about:

  * utils.py   : clean_up_heading, the signature of
                 load_all_headings_from_mixed_list (its arity is what matters
                 to the calling code in main.py);
  * cache.py   : read_cache_file (its filename checks decide whether a
                 snapshot can ever be loaded);
  * events.py  : the Event data class, Event.from_org (including the
                 list-aliasing behaviour of the dataclasses.replace clone),
                 Event.get_duration, Event.get_recurrence, compare_events;
  * main.py    : process_calendar, split into the identifier synthesis
                 (SHA-256, folded to 128 bits, formatted as a version-4 UUID
                 string), the per-event reconciliation loop, the stale-entry
                 deletion pass, and the final snapshot write.

Python strings are modelled as lists of characters; where the code hashes a
string it first encodes it as UTF-8, which is modelled by utf8Bytes.
Python datetimes attached to a single org timestamp share one calendar date,
so clock times are modelled structurally and the within-branch arithmetic of
Event.get_duration is carried out on minutes.  The CalDAV server is an
external collaborator and is modelled at its interface boundary as a map from
UID to event content: find-by-uid is lookup, create inserts the saved content,
update replaces it, delete removes it.  yaml, pytz, orgparse and caldav are
collaborators; only the behaviour the reconciler observes is modelled.
-/

/-! ## Python string primitives (str is modelled as List Char) -/

abbrev Str := List Char

/-- Model of Python str.startswith: pattern matches at the front. -/
def listStartsWith : Str → Str → Bool
  | _, [] => true
  | [], _ :: _ => false
  | a :: as, b :: bs => a == b && listStartsWith as bs

/-- Model of Python str.endswith: the pattern is a suffix, checked by
reversing both strings and matching at the front. -/
def listEndsWith (s pat : Str) : Bool :=
  listStartsWith s.reverse pat.reverse

/-- Model of Python s.replace(pat, ...) with an empty replacement: removes
every non-overlapping occurrence of pat, scanning left to right.  The fuel
argument (always instantiated with the length of the string) makes the
recursion structural. -/
def removeAllAux (pat : Str) : Nat → Str → Str
  | 0, s => s
  | _ + 1, [] => []
  | fuel + 1, c :: cs =>
    if pat ≠ [] ∧ listStartsWith (c :: cs) pat then
      removeAllAux pat fuel (List.drop (pat.length - 1) cs)
    else
      c :: removeAllAux pat fuel cs

/-- Model of Python s.replace(pat, two-quote empty string). -/
def removeAll (pat s : Str) : Str :=
  removeAllAux pat s.length s

/-- Whitespace characters stripped by Python str.strip (ASCII range). -/
def isPySpace (c : Char) : Bool :=
  c == ' ' || c == '\t' || c == '\n' || c == '\r' || c == Char.ofNat 11 || c == Char.ofNat 12

/-- Model of Python str.strip(): drop whitespace from both ends. -/
def pyStrip (s : Str) : Str :=
  ((s.dropWhile isPySpace).reverse.dropWhile isPySpace).reverse

/-- Model of Python str.lower() (sufficient for the ASCII TODO keywords the
program passes through it). -/
def lowerStr (s : Str) : Str :=
  s.map Char.toLower

/-- Python string comparison: lexicographic on code points. -/
def strLe : Str → Str → Bool
  | [], _ => true
  | _ :: _, [] => false
  | a :: as, b :: bs => if a = b then strLe as bs else decide (a < b)

/-- Stable insertion used by the model of Python list.sort() on strings:
an element is placed after all existing elements that are ≤ it. -/
def insSorted (a : Str) : List Str → List Str
  | [] => [a]
  | b :: bs => if strLe b a then b :: insSorted a bs else a :: b :: bs

/-- Model of Python list.sort() for lists of strings (stable, ascending). -/
def sortStr (l : List Str) : List Str :=
  l.foldl (fun acc a => insSorted a acc) []

/-- Model of Python int(s) for a decimal string: optional surrounding
whitespace, optional sign, at least one digit, nothing else.  Returns none
where int() raises ValueError. -/
def parseDigits : List Char → Option Nat
  | [] => none
  | [c] => if c.isDigit then some (c.toNat - 48) else none
  | c :: cs =>
    if c.isDigit then
      match parseDigits cs with
      | some n => some ((c.toNat - 48) * 10 ^ cs.length + n)
      | none => none
    else none

/-- Model of Python int(str). -/
def pyIntParse (s : Str) : Option Int :=
  match pyStrip s with
  | '-' :: rest => (parseDigits rest).map (fun n => -(n : Int))
  | '+' :: rest => (parseDigits rest).map (fun n => (n : Int))
  | rest => (parseDigits rest).map (fun n => (n : Int))

/-! ## utils.py -/

/-- Default TODO keyword vocabulary (utils.py line 11). -/
def DEFAULT_TODO_KEYWORDS : List Str :=
  ["NEXT".toList, "RUNNING".toList, "PAUSED".toList, "WAIT".toList,
   "CANCELLED".toList, "DELEGATED".toList]

/-- Default priority cookies (utils.py line 12). -/
def DEFAULT_PRIORITIES : List Str :=
  ["A".toList, "B".toList, "C".toList, "D".toList, "E".toList, "F".toList,
   "G".toList]

/-- Model of utils.clean_up_heading with explicit vocabularies.  For each
todo keyword in order: when the current heading starts with the keyword,
every occurrence of the keyword is removed (str.replace with an empty
replacement) and the result stripped.  The same is then done for each
bracketed priority cookie. -/
def clean_up_heading (todo_keywords priorities : List Str) (heading : Str) : Str :=
  let h1 := todo_keywords.foldl
    (fun h kw => if listStartsWith h kw then pyStrip (removeAll kw h) else h)
    heading
  priorities.foldl
    (fun h p =>
      let cookie := '[' :: '#' :: (p ++ [']'])
      if listStartsWith h cookie then pyStrip (removeAll cookie h) else h)
    h1

/-- clean_up_heading as called by Event.from_org: both optional arguments
are left at their defaults. -/
def clean_up_heading_default (heading : Str) : Str :=
  clean_up_heading DEFAULT_TODO_KEYWORDS DEFAULT_PRIORITIES heading

/-! ## Calendar date and time values

An org timestamp parsed by orgparse yields a start that is either a plain
date or a datetime, and (only for a time range written inside one timestamp,
such as 10:00-12:00) an end datetime on the same calendar date; orgparse
leaves the end of a two-timestamp range as None, which is why events.py has
the regex workaround.  Clock arithmetic inside one date is carried out on
minutes. -/

structure Date where
  y : Nat
  mo : Nat
  da : Nat
deriving DecidableEq, Repr

structure DayTime where
  h : Nat
  mi : Nat
deriving DecidableEq, Repr

/-- One orgparse timestamp (node.scheduled or node.deadline): the calendar
date, the optional start clock time (none models a date-only stamp), the
optional end clock time on the same date, and the repeater information.
hasRepeater models hasattr(stamp, underscore-repeater); repeater models the
attribute value, a tuple of string and int tokens (none models None). -/
inductive RTok where
  | tok (s : Str)
  | num (n : Int)
deriving DecidableEq, Repr

structure OrgDate where
  date : Date
  startTime : Option DayTime
  endTime : Option DayTime
  hasRepeater : Bool
  repeater : Option (List RTok)
deriving DecidableEq, Repr

/-- Equality test orgparse applies for node.scheduled != node.deadline:
the timestamps compare by their start and end values. -/
def orgDateEq (a b : OrgDate) : Bool :=
  a.date == b.date && a.startTime == b.startTime && a.endTime == b.endTime

/-- A scheduled value carried by an Event: either a plain date (date-only
org stamp) or a datetime localized to the configured Europe/Berlin zone. -/
inductive Sched where
  | onDay (d : Date)
  | inst (d : Date) (t : DayTime)
deriving DecidableEq, Repr

/-! ## events.py : the Event data class -/

/-- Model of Python effort property values: get_property returns the int 0
by default, an int for a bare number, or the raw string. -/
inductive Effort where
  | eInt (n : Int)
  | eStr (s : Str)
deriving DecidableEq, Repr

/-- Exceptions that can escape the modelled code. -/
inductive PyError where
  | typeError
  | attributeError
  | valueError
deriving DecidableEq, Repr

/-- The Event dataclass fields the program compares and caches.  created_at,
last_modified_at and the remote handle are never put into the snapshot nor
compared, and are omitted.  Durations are timedeltas in minutes. -/
structure Event where
  uid : Option Str
  title : Str
  description : Str
  scheduled : Option Sched
  duration : Option Int
  recurrence_freq : Str
  recurrence_interval : Int
  recurrence_count : Int
  tags : List Str
deriving DecidableEq, Repr

/-- Mapping from org repeat units to RRULE frequencies (events.py line 13). -/
def repeatToFreq (c : Str) : Option Str :=
  if c = "d".toList then some "DAILY".toList
  else if c = "w".toList then some "WEEKLY".toList
  else if c = "m".toList then some "MONTHLY".toList
  else if c = "y".toList then some "YEARLY".toList
  else none

structure RecSt where
  plus : Bool
  intervalFlag : Bool
  freq : Str
  intervalN : Int
deriving Repr

/-- One iteration of the character loop of Event.get_recurrence. -/
def recStep (st : RecSt) (c : RTok) : RecSt :=
  if c == RTok.tok " ".toList then { st with plus := false, intervalFlag := false }
  else if st.intervalFlag then
    match c with
    | RTok.tok s =>
      match repeatToFreq s with
      | some f => { st with freq := f }
      | none => { st with freq := [], intervalN := 0 }
    | RTok.num _ => { st with freq := [], intervalN := 0 }
  else if st.plus then
    match c with
    | RTok.num n => { st with intervalN := n, intervalFlag := true }
    | _ => st
  else if c == RTok.tok "+".toList then { st with plus := true }
  else st

/-- Model of Event.get_recurrence: decode a repeater tuple into
(frequency, interval, count).  The count is never assigned by the source and
is always returned as 0. -/
def Event.get_recurrence (repeater : Option (List RTok)) : Str × Int × Int :=
  match repeater with
  | none => ([], 0, 0)
  | some toks =>
    if toks.length == 3 then
      let st := toks.foldl recStep ⟨false, false, [], 0⟩
      (st.freq, st.intervalN, 0)
    else ([], 0, 0)

/-- Model of Event.get_duration.  The first branch fires when the timestamp
carries both a start and an end clock time: if the end hour is less than the
start hour one day (1440 minutes) is added to the end instant before
subtracting.  Otherwise the regex range workaround (whose re-parsed result,
a delta in minutes, is a collaborator input here) is consulted, then the
effort property: a bare int is minutes, an H:MM string is parsed with int()
which can raise ValueError (the outer none). -/
def Event.get_duration (time : OrgDate) (rangeDelta : Option Int)
    (effort : Effort) : Except PyError (Option Int) :=
  match time.startTime, time.endTime with
  | some st, some et =>
    let s : Int := st.h * 60 + st.mi
    let e : Int := et.h * 60 + et.mi
    if et.h < st.h then .ok (some (e + 1440 - s)) else .ok (some (e - s))
  | _, _ =>
    match rangeDelta with
    | some d => .ok (some d)
    | none =>
      match effort with
      | .eInt m => .ok (some m)
      | .eStr s =>
        if s.contains ':' then
          let parts := (pyStrip s).splitOn ':'
          match pyIntParse (parts.getD 0 []), pyIntParse (parts.getD 1 []) with
          | some h, some m => .ok (some (h * 60 + m))
          | _, _ => .error .valueError
        else .ok none

/-! ## events.py : Event.from_org

A heading record as the core consumes it from the orgparse collaborator.
schedRangeDelta and deadlineRangeDelta are the collaborator-parsed results of
the regex range workaround (the end minus start of a two-timestamp range
written in the raw node text), already in minutes. -/

structure OrgNode where
  idProp : Option Str
  heading : Str
  body : Str
  tags : List Str
  todo : Option Str
  effort : Effort
  scheduled : Option OrgDate
  deadline : Option OrgDate
  schedRangeDelta : Option Int
  deadlineRangeDelta : Option Int
deriving Repr

/-- Conversion of an org timestamp start into the Event scheduled value:
datetimes are localized to the configured Europe/Berlin zone, dates stay
date-only. -/
def localizeStart (od : OrgDate) : Sched :=
  match od.startTime with
  | some t => Sched.inst od.date t
  | none => Sched.onDay od.date

/-- Model of the generator Event.from_org.  It yields the scheduled variant
when node.scheduled is set, and a deadline variant when node.deadline is set
and differs from node.scheduled.  The clone of the deadline variant is made
with dataclasses.replace, which copies the reference to the tags list, so
the append of the deadline marker and the in-place sort mutate the list that
the already-yielded scheduled variant also holds: both yielded Events end up
with the same final tags list.  The deadline variant reads the repeater of
node.scheduled (events.py line 158); when the deadline timestamp has a
repeater attribute but node.scheduled is None or lacks one, that read raises
AttributeError.  A ValueError from the effort parse also escapes the
generator. -/
def Event.from_org (node : OrgNode) : Except PyError (List Event) :=
  let title0 := clean_up_heading_default node.heading
  let tags0 := node.tags.filter (fun t => t.length > 0)
  let (tags1, title1) :=
    match node.todo with
    | some td =>
      (tags0 ++ [lowerStr (pyStrip td)],
       if td = "DONE".toList then "Done: ".toList ++ title0 else title0)
    | none => (tags0, title0)
  match node.scheduled, node.deadline with
  | none, none => Except.ok []
  | some sd, none =>
    match Event.get_duration sd node.schedRangeDelta node.effort with
    | Except.error e => Except.error e
    | Except.ok dur =>
      let rec1 :=
        if sd.hasRepeater then Event.get_recurrence sd.repeater else ([], 0, 0)
      Except.ok [{ uid := node.idProp, title := title1, description := node.body,
                   scheduled := some (localizeStart sd), duration := dur,
                   recurrence_freq := rec1.1, recurrence_interval := rec1.2.1,
                   recurrence_count := rec1.2.2, tags := sortStr tags1 }]
  | some sd, some dd =>
    match Event.get_duration sd node.schedRangeDelta node.effort with
    | Except.error e => Except.error e
    | Except.ok dur =>
      let rec1 :=
        if sd.hasRepeater then Event.get_recurrence sd.repeater else ([], 0, 0)
      if orgDateEq sd dd then
        Except.ok [{ uid := node.idProp, title := title1, description := node.body,
                     scheduled := some (localizeStart sd), duration := dur,
                     recurrence_freq := rec1.1, recurrence_interval := rec1.2.1,
                     recurrence_count := rec1.2.2, tags := sortStr tags1 }]
      else
        match Event.get_duration dd node.deadlineRangeDelta node.effort with
        | Except.error e => Except.error e
        | Except.ok dur2 =>
          match (if dd.hasRepeater then
                   (if sd.hasRepeater then
                      Except.ok (Event.get_recurrence sd.repeater)
                    else Except.error PyError.attributeError)
                 else Except.ok (([] : Str), (0 : Int), (0 : Int))) with
          | Except.error e => Except.error e
          | Except.ok rec2 =>
            let sharedTags := sortStr (sortStr tags1 ++ ["deadline".toList])
            Except.ok
              [{ uid := node.idProp, title := title1, description := node.body,
                 scheduled := some (localizeStart sd), duration := dur,
                 recurrence_freq := rec1.1, recurrence_interval := rec1.2.1,
                 recurrence_count := rec1.2.2, tags := sharedTags },
               { uid := node.idProp, title := title1 ++ ['!'],
                 description := node.body,
                 scheduled := some (localizeStart dd), duration := dur2,
                 recurrence_freq := rec2.1, recurrence_interval := rec2.2.1,
                 recurrence_count := rec2.2.2, tags := sharedTags }]
  | none, some dd =>
    match Event.get_duration dd node.deadlineRangeDelta node.effort with
    | Except.error e => Except.error e
    | Except.ok dur2 =>
      match (if dd.hasRepeater then Except.error PyError.attributeError
             else Except.ok (([] : Str), (0 : Int), (0 : Int))) with
      | Except.error e => Except.error e
      | Except.ok rec2 =>
        Except.ok [{ uid := node.idProp, title := title1 ++ ['!'],
                     description := node.body,
                     scheduled := some (localizeStart dd), duration := dur2,
                     recurrence_freq := rec2.1, recurrence_interval := rec2.2.1,
                     recurrence_count := rec2.2.2,
                     tags := sortStr (tags1 ++ ["deadline".toList]) }]

/-! ## UTF-8 encoding (str.encode) -/

/-- Model of Python str.encode applied before hashing: standard UTF-8. -/
def utf8Bytes : Str → List Nat
  | [] => []
  | c :: cs =>
    let n := c.toNat
    (if n < 128 then [n]
     else if n < 2048 then [192 + n / 64, 128 + n % 64]
     else if n < 65536 then [224 + n / 4096, 128 + n / 64 % 64, 128 + n % 64]
     else [240 + n / 262144, 128 + n / 4096 % 64, 128 + n / 64 % 64,
           128 + n % 64]) ++ utf8Bytes cs

/-! ## SHA-256 (hashlib.sha256), on byte lists, words as Nat mod 2^32 -/

def rotr32 (x n : Nat) : Nat :=
  (x / 2 ^ n + x % 2 ^ n * 2 ^ (32 - n)) % 2 ^ 32

def shaCh (e f g : Nat) : Nat :=
  (e &&& f) ^^^ ((e ^^^ (2 ^ 32 - 1)) &&& g)

def shaMaj (a b c : Nat) : Nat :=
  (a &&& b) ^^^ (a &&& c) ^^^ (b &&& c)

def bigSigma0 (x : Nat) : Nat := rotr32 x 2 ^^^ rotr32 x 13 ^^^ rotr32 x 22

def bigSigma1 (x : Nat) : Nat := rotr32 x 6 ^^^ rotr32 x 11 ^^^ rotr32 x 25

def smallSigma0 (x : Nat) : Nat := rotr32 x 7 ^^^ rotr32 x 18 ^^^ x / 2 ^ 3

def smallSigma1 (x : Nat) : Nat := rotr32 x 17 ^^^ rotr32 x 19 ^^^ x / 2 ^ 10

def shaK : List Nat :=
  [1116352408, 1899447441, 3049323471, 3921009573, 961987163,
   1508970993, 2453635748, 2870763221, 3624381080, 310598401,
   607225278, 1426881987, 1925078388, 2162078206, 2614888103,
   3248222580, 3835390401, 4022224774, 264347078, 604807628,
   770255983, 1249150122, 1555081692, 1996064986, 2554220882,
   2821834349, 2952996808, 3210313671, 3336571891, 3584528711,
   113926993, 338241895, 666307205, 773529912, 1294757372,
   1396182291, 1695183700, 1986661051, 2177026350, 2456956037,
   2730485921, 2820302411, 3259730800, 3345764771, 3516065817,
   3600352804, 4094571909, 275423344, 430227734, 506948616,
   659060556, 883997877, 958139571, 1322822218, 1537002063,
   1747873779, 1955562222, 2024104815, 2227730452, 2361852424,
   2428436474, 2756734187, 3204031479, 3329325298]

def shaH0 : List Nat :=
  [1779033703, 3144134277, 1013904242, 2773480762,
   1359893119, 2600822924, 528734635, 1541459225]

/-- Group bytes into big-endian 32-bit words. -/
def toWords : List Nat → List Nat
  | b0 :: b1 :: b2 :: b3 :: rest =>
    (((b0 * 256 + b1) * 256 + b2) * 256 + b3) :: toWords rest
  | _ => []

/-- Extend the 16 message words to 64. -/
def extendW : List Nat → Nat → List Nat
  | ws, 0 => ws
  | ws, n + 1 =>
    let w := (smallSigma1 (ws.getD (ws.length - 2) 0) + ws.getD (ws.length - 7) 0
      + smallSigma0 (ws.getD (ws.length - 15) 0) + ws.getD (ws.length - 16) 0) % 2 ^ 32
    extendW (ws ++ [w]) n

structure ShaSt where
  a : Nat
  b : Nat
  c : Nat
  d : Nat
  e : Nat
  f : Nat
  g : Nat
  h : Nat

def compressStep (st : ShaSt) (kw : Nat × Nat) : ShaSt :=
  let t1 := (st.h + bigSigma1 st.e + shaCh st.e st.f st.g + kw.1 + kw.2) % 2 ^ 32
  let t2 := (bigSigma0 st.a + shaMaj st.a st.b st.c) % 2 ^ 32
  ⟨(t1 + t2) % 2 ^ 32, st.a, st.b, st.c, (st.d + t1) % 2 ^ 32, st.e, st.f, st.g⟩

def processBlock (hs : List Nat) (block : List Nat) : List Nat :=
  let ws := extendW (toWords block) 48
  let st0 : ShaSt := ⟨hs.getD 0 0, hs.getD 1 0, hs.getD 2 0, hs.getD 3 0,
    hs.getD 4 0, hs.getD 5 0, hs.getD 6 0, hs.getD 7 0⟩
  let st := (shaK.zip ws).foldl compressStep st0
  [(hs.getD 0 0 + st.a) % 2 ^ 32, (hs.getD 1 0 + st.b) % 2 ^ 32,
   (hs.getD 2 0 + st.c) % 2 ^ 32, (hs.getD 3 0 + st.d) % 2 ^ 32,
   (hs.getD 4 0 + st.e) % 2 ^ 32, (hs.getD 5 0 + st.f) % 2 ^ 32,
   (hs.getD 6 0 + st.g) % 2 ^ 32, (hs.getD 7 0 + st.h) % 2 ^ 32]

/-- Big-endian 8-byte encoding of the bit length. -/
def be8 (n : Nat) : List Nat :=
  [n / 2 ^ 56 % 256, n / 2 ^ 48 % 256, n / 2 ^ 40 % 256, n / 2 ^ 32 % 256,
   n / 2 ^ 24 % 256, n / 2 ^ 16 % 256, n / 2 ^ 8 % 256, n % 256]

/-- SHA-256 padding: a 0x80 byte, zeros to 56 mod 64, the bit length. -/
def padMsg (msg : List Nat) : List Nat :=
  let L := msg.length
  msg ++ 128 :: List.replicate ((119 - L % 64) % 64) 0 ++ be8 (8 * L)

/-- Split a padded message into 64-byte blocks (fuel makes it structural). -/
def chunks64 : Nat → List Nat → List (List Nat)
  | 0, _ => []
  | _ + 1, [] => []
  | fuel + 1, l => l.take 64 :: chunks64 fuel (l.drop 64)

def sha256Words (msg : List Nat) : List Nat :=
  let p := padMsg msg
  (chunks64 p.length p).foldl processBlock shaH0

/-- The digest as the integer int(hexdigest, 16): the eight state words
big-endian. -/
def sha256Int (msg : List Nat) : Nat :=
  (sha256Words msg).foldl (fun acc w => acc * 2 ^ 32 + w) 0

/-! ## uuid.UUID(int=x, version=4) and its string form -/

/-- Set the RFC 4122 variant: clear bits 62 and 63, set bit 63. -/
def setVariant (x : Nat) : Nat :=
  x % 2 ^ 62 + 2 ^ 63 + x / 2 ^ 64 * 2 ^ 64

/-- Set version 4: clear bits 76 to 79, set bit 78. -/
def setVersion4 (x : Nat) : Nat :=
  x % 2 ^ 76 + 4 * 2 ^ 76 + x / 2 ^ 80 * 2 ^ 80

/-- The 128-bit integer held by uuid.UUID(int=x, version=4). -/
def uuidInt (x : Nat) : Nat :=
  setVersion4 (setVariant x)

def hexChar (n : Nat) : Char :=
  if n < 10 then Char.ofNat (48 + n) else Char.ofNat (87 + n)

/-- Fixed-width lowercase hex digits, most significant first. -/
def hexPad : Nat → Nat → Str
  | 0, _ => []
  | w + 1, n => hexPad w (n / 16) ++ [hexChar (n % 16)]

/-- str(uuid.UUID(...)): 32 hex digits in 8-4-4-4-12 groups. -/
def uuidStr (n : Nat) : Str :=
  let d := hexPad 32 n
  d.take 8 ++ '-' :: ((d.drop 8).take 4) ++ '-' :: ((d.drop 12).take 4)
    ++ '-' :: ((d.drop 16).take 4) ++ '-' :: d.drop 20

/-! ## Rendering of values interpolated into the hashed f-string -/

def digitChar : Nat → Char
  | 0 => '0'
  | 1 => '1'
  | 2 => '2'
  | 3 => '3'
  | 4 => '4'
  | 5 => '5'
  | 6 => '6'
  | 7 => '7'
  | 8 => '8'
  | _ => '9'

def pad2 (n : Nat) : Str := [digitChar (n / 10 % 10), digitChar (n % 10)]

def pad4 (n : Nat) : Str :=
  [digitChar (n / 1000 % 10), digitChar (n / 100 % 10), digitChar (n / 10 % 10),
   digitChar (n % 10)]

/-- str() of a datetime.date: ISO format. -/
def dateStr (d : Date) : Str :=
  pad4 d.y ++ '-' :: (pad2 d.mo ++ '-' :: pad2 d.da)

/-- The UTC offset suffix pytz attaches to a Europe/Berlin datetime.  Its
exact value (winter or summer offset) is a collaborator detail that no claim
depends on; the winter offset is used. -/
def berlinOffsetStr : Str := "+01:00".toList

/-- str() of an Event scheduled value as interpolated into the f-string:
None, an ISO date, or an ISO datetime with seconds and UTC offset. -/
def schedStr : Option Sched → Str
  | none => "None".toList
  | some (Sched.onDay d) => dateStr d
  | some (Sched.inst d t) =>
    dateStr d ++ ' ' :: (pad2 t.h ++ ':' :: (pad2 t.mi ++ ':' :: ('0' :: '0' :: berlinOffsetStr)))

/-- Decimal digits of a Nat (fuel-structural). -/
def natStrAux : Nat → Nat → Str
  | 0, _ => []
  | _ + 1, 0 => []
  | fuel + 1, n => natStrAux fuel (n / 10) ++ [digitChar (n % 10)]

/-- str() of a non-negative int. -/
def natStr (n : Nat) : Str :=
  if n = 0 then ['0'] else natStrAux n n

/-- str() of a Python int. -/
def intStr (i : Int) : Str :=
  if i < 0 then '-' :: natStr i.natAbs else natStr i.natAbs

def nulChar : Char := Char.ofNat 0

/-! ## main.py : identifier synthesis -/

/-- The f-string hashed when an Event has no explicit identifier
(main.py lines 70-72): the six values joined by the NUL separator. -/
def hashInputStr (calendar_id : Str) (e : Event) : Str :=
  calendar_id ++ nulChar :: (e.title ++ nulChar :: (schedStr e.scheduled
    ++ nulChar :: (e.recurrence_freq ++ nulChar :: (intStr e.recurrence_interval
    ++ nulChar :: intStr e.recurrence_count))))

/-- main.py lines 70-74: SHA-256 the encoded f-string, keep the low 128 bits
of the digest integer, build a version-4 UUID from them, take its string. -/
def synthUid (calendar_id : Str) (e : Event) : Str :=
  uuidStr (uuidInt (Nat.land (sha256Int (utf8Bytes (hashInputStr calendar_id e)))
    (2 ^ 128 - 1)))

/-- The identifier an Event ends up with in the loop of process_calendar:
the explicit ID property when present, the synthesized one otherwise. -/
def resolveUid (calendar_id : Str) (e : Event) : Str :=
  match e.uid with
  | some u => u
  | none => synthUid calendar_id e

/-! ## Snapshot entries (the per-UID dicts built at main.py lines 82-91) -/

/-- The dict stored into new_cache for one event, and the shape of a loaded
old_cache entry.  Dict equality in Python compares all these values, which
is what Event.compare_events also does field by field. -/
structure CacheEntry where
  title : Str
  scheduled : Option Sched
  duration : Option Int
  description : Str
  recurrence_freq : Str
  recurrence_interval : Int
  recurrence_count : Int
  tags : List Str
deriving DecidableEq, Repr

/-- The comparable content of an Event (the fields written into the cache). -/
def Event.content (e : Event) : CacheEntry :=
  ⟨e.title, e.scheduled, e.duration, e.description, e.recurrence_freq,
   e.recurrence_interval, e.recurrence_count, e.tags⟩

/-- Model of Event.compare_events (events.py lines 334-345), stated on the
comparable content: field-by-field equality of title, scheduled, duration,
description, recurrence and tags.  compare_with_ical is this comparison
applied to the content read back from the remote record. -/
def compare_events (e1 e2 : CacheEntry) : Bool :=
  e1.title == e2.title && e1.scheduled == e2.scheduled
    && e1.duration == e2.duration && e1.description == e2.description
    && e1.recurrence_freq == e2.recurrence_freq
    && e1.recurrence_interval == e2.recurrence_interval
    && e1.recurrence_count == e2.recurrence_count && e1.tags == e2.tags

/-- A mapping from UID to entry, as an association list in insertion order
(Python dict); also the shape of the remote calendar viewed through the
Calendar Port: find-by-uid is lookup, create appends, update replaces,
delete removes. -/
abbrev Cache := List (Str × CacheEntry)

abbrev Remote := List (Str × CacheEntry)

def lookupA : List (Str × CacheEntry) → Str → Option CacheEntry
  | [], _ => none
  | (k, v) :: rest, u => if k = u then some v else lookupA rest u

def setA : List (Str × CacheEntry) → Str → CacheEntry → List (Str × CacheEntry)
  | [], _, _ => []
  | (k, v) :: rest, u, c => if k = u then (k, c) :: rest else (k, v) :: setA rest u c

def removeA : List (Str × CacheEntry) → Str → List (Str × CacheEntry)
  | [], _ => []
  | (k, v) :: rest, u => if k = u then rest else (k, v) :: removeA rest u

/-! ## cache.py -/

def CACHE_DIR : Str := ".orgcal_cache".toList

def pathJoin (dir f : Str) : Str := dir ++ '/' :: f

/-- Model of cache.read_cache_file.  pathExists and isFile describe the file
system state for the joined path; content is the mapping under the cache key
of the YAML document the file holds (the program only ever writes documents
of that shape, and a document with a cache key is a non-empty dict, hence
truthy).  The filename test is translated exactly as written in the source:
(not full.endswith(".yaml")) or full.endswith(".yml"). -/
def read_cache_file (pathExists isFile : Bool) (filename : Str)
    (content : Cache) : Option Cache :=
  let full := pathJoin CACHE_DIR filename
  if !pathExists then none
  else if !isFile then none
  else if !(listEndsWith full ".yaml".toList) || listEndsWith full ".yml".toList then
    none
  else some content

/-- The snapshot filename process_calendar uses (main.py line 33). -/
def cacheFileName (calendar_id : Str) : Str :=
  calendar_id ++ ".bin".toList

/-! ## main.py : the reconciliation loop -/

/-- Externally visible things the run does, in order: the snapshot read, the
initialising write of an empty snapshot, remote find and write calls, the
log line of a failed write, and the final snapshot write. -/
inductive RAction where
  | readCache
  | writeCacheEmpty
  | findCall (uid : Str)
  | createCall (uid : Str)
  | updateCall (uid : Str)
  | deleteCall (uid : Str)
  | logError (uid : Str)
  | saveNew (c : Cache)
deriving DecidableEq, Repr

/-- Which branch of the loop a processed event took.  Duplicate-UID events
are skipped before any branch and get no outcome. -/
inductive Outcome where
  | skipCached
  | noopEq
  | updated
  | created
deriving DecidableEq, Repr

structure RunState where
  processed : List Str
  newCache : Cache
  oldRemaining : List Str
  remote : Remote
  actions : List RAction
  outcomes : List (Str × Outcome)
deriving Repr

/-- One iteration of the event loop (main.py lines 66-119).  writeOk says
whether the remote create or update for a UID succeeds; a failed write
leaves the remote unchanged and is logged (the PutError handlers in
save_to_calendar and update_remote_event, and the except clause of the
loop, all log and continue).  The remote record is idealised here as the
event's full content and the found-record comparison as content equality;
the record the code actually stores is save_to_calendar_rec and its
comparison compare_with_ical, whose round trip is lossy (the subject of
claim C2), so no property proved from stepEvent may depend on which of the
no-op and update branches is taken — the ones below depend only on the
per-event action and outcome structure that both branches share. -/
def stepEvent (calendar_id : Str) (oldCache : Cache) (writeOk : Str → Bool)
    (s : RunState) (ev : Event) : RunState :=
  let u := resolveUid calendar_id ev
  if u ∈ s.processed then s
  else
    let c := ev.content
    let inOld := u ∈ s.oldRemaining
    let s2 := { s with processed := s.processed ++ [u],
                       newCache := s.newCache ++ [(u, c)],
                       oldRemaining :=
                         if inOld then s.oldRemaining.erase u else s.oldRemaining }
    if inOld ∧ lookupA oldCache u = some c then
      { s2 with outcomes := s2.outcomes ++ [(u, Outcome.skipCached)] }
    else
      match lookupA s2.remote u with
      | some r =>
        if compare_events c r then
          { s2 with actions := s2.actions ++ [RAction.findCall u],
                    outcomes := s2.outcomes ++ [(u, Outcome.noopEq)] }
        else if writeOk u then
          { s2 with actions := s2.actions ++ [RAction.findCall u, RAction.updateCall u],
                    remote := setA s2.remote u c,
                    outcomes := s2.outcomes ++ [(u, Outcome.updated)] }
        else
          { s2 with actions := s2.actions
                      ++ [RAction.findCall u, RAction.updateCall u, RAction.logError u],
                    outcomes := s2.outcomes ++ [(u, Outcome.updated)] }
      | none =>
        if writeOk u then
          { s2 with actions := s2.actions ++ [RAction.findCall u, RAction.createCall u],
                    remote := s2.remote ++ [(u, c)],
                    outcomes := s2.outcomes ++ [(u, Outcome.created)] }
        else
          { s2 with actions := s2.actions
                      ++ [RAction.findCall u, RAction.createCall u, RAction.logError u],
                    outcomes := s2.outcomes ++ [(u, Outcome.created)] }

/-- One iteration of the stale-entry pass: the UID is looked up remotely and
deleted when found. -/
def delStep (st : RunState) (u : Str) : RunState :=
  match lookupA st.remote u with
  | some _ =>
    { st with actions := st.actions ++ [RAction.findCall u, RAction.deleteCall u],
              remote := removeA st.remote u }
  | none => { st with actions := st.actions ++ [RAction.findCall u] }

/-- The stale-entry pass (main.py lines 128-131): every UID still in
old_events is looked up remotely and deleted when found. -/
def deleteStale (s : RunState) : RunState :=
  s.oldRemaining.foldl delStep s

/-- Model of main.process_calendar from the snapshot read onwards (lines
33-139), given the already-derived and sorted desired event list.
cacheExists and cacheIsFile describe the snapshot file, diskDoc its content
if it were readable, remoteFound whether client.calendar resolves (line 61:
when it does not, the run returns before the loop and before any snapshot
save).  When the read yields None the code immediately writes an empty
snapshot (line 37) and continues with an empty old cache.  Writes of the
snapshot file (that empty write and the final save) are modelled as
succeeding, which is faithful when the snapshot path is absent or a regular
writable file; on a path that exists but is no regular file the real
open(path, w-mode) raises instead, which is why the unreadable-snapshot
claims below are instantiated at a regular snapshot file. -/
def runReconcile (calendar_id : Str) (cacheExists cacheIsFile remoteFound : Bool)
    (diskDoc : Cache) (events : List Event) (remote0 : Remote)
    (writeOk : Str → Bool) : RunState :=
  let rd := read_cache_file cacheExists cacheIsFile (cacheFileName calendar_id) diskDoc
  let oldCache := match rd with | none => [] | some c => c
  let acts0 := match rd with
    | none => [RAction.readCache, RAction.writeCacheEmpty]
    | some _ => [RAction.readCache]
  let s0 : RunState :=
    ⟨[], [], oldCache.map Prod.fst, remote0, acts0, []⟩
  if !remoteFound then s0
  else
    let s1 := events.foldl (stepEvent calendar_id oldCache writeOk) s0
    let s2 := deleteStale s1
    { s2 with actions := s2.actions ++ [RAction.saveNew s2.newCache] }

/-! ## main.py : process_calendar including the heading load

utils.load_all_headings_from_mixed_list is declared with two parameters,
mixed_list and cutoff_date, neither with a default (utils.py line 193);
process_calendar calls it with a single argument (main.py line 28).  Python
raises TypeError when a call supplies fewer positional arguments than the
callee requires, before the callee body runs. -/

def load_all_headings_from_mixed_list_required_args : Nat := 2

def process_calendar_headings_call_args : Nat := 1

/-- A call to load_all_headings_from_mixed_list with the given number of
positional arguments: TypeError when fewer than required; otherwise the
collaborator-loaded heading list. -/
def callHeadingsLoader (nargs : Nat) (loaded : List OrgNode) :
    Except PyError (List OrgNode) :=
  if nargs < load_all_headings_from_mixed_list_required_args then
    Except.error PyError.typeError
  else Except.ok loaded

/-- Stable sort of the derived events by the Python hash of their scheduled
value (main.py lines 25-31); the hash function itself is opaque and passed
in. -/
def sortEvents (hashKey : Option Sched → Int) (l : List Event) : List Event :=
  (l.foldl (fun acc a => acc ++ [a]) []).foldl
    (fun acc a =>
      let rec ins : List Event → List Event
        | [] => [a]
        | b :: bs =>
          if hashKey b.scheduled ≤ hashKey a.scheduled then b :: ins bs
          else a :: b :: bs
      ins acc) []

/-- Model of main.process_calendar for one configured calendar: evaluate the
heading-loading call (which determines whether the body ever runs), derive
and sort events, then reconcile.  The result is the list of performed
actions paired with the exception that escaped, if any. -/
def process_calendar_model (calendar_id : Str) (loaded : List OrgNode)
    (hashKey : Option Sched → Int) (cacheExists cacheIsFile remoteFound : Bool)
    (diskDoc : Cache) (remote0 : Remote) (writeOk : Str → Bool) :
    List RAction × Option PyError :=
  match callHeadingsLoader process_calendar_headings_call_args loaded with
  | Except.error e => ([], some e)
  | Except.ok headings =>
    match headings.mapM Event.from_org with
    | Except.error e => ([], some e)
    | Except.ok eventLists =>
      let events := sortEvents hashKey eventLists.flatten
      ((runReconcile calendar_id cacheExists cacheIsFile remoteFound diskDoc
        events remote0 writeOk).actions, none)

/-! ## Decidability of equality on Except results, used to evaluate the
model at concrete inputs -/

instance {ε α : Type} [DecidableEq ε] [DecidableEq α] :
    DecidableEq (Except ε α) := fun x y =>
  match x, y with
  | Except.ok a, Except.ok b =>
    if h : a = b then isTrue (by rw [h])
    else isFalse (fun hh => h (Except.ok.inj hh))
  | Except.error a, Except.error b =>
    if h : a = b then isTrue (by rw [h])
    else isFalse (fun hh => h (Except.error.inj hh))
  | Except.ok _, Except.error _ => isFalse (fun hh => Except.noConfusion hh)
  | Except.error _, Except.ok _ => isFalse (fun hh => Except.noConfusion hh)

/-! ## Claim C1 -/

/-- A heading with a scheduled date and a distinct deadline date, no tags,
no TODO state. -/
def c9node : OrgNode :=
  { idProp := none, heading := "Meet".toList, body := [], tags := [],
    todo := none, effort := Effort.eInt 0,
    scheduled := some ⟨⟨2024, 1, 1⟩, none, none, false, none⟩,
    deadline := some ⟨⟨2024, 1, 2⟩, none, none, false, none⟩,
    schedRangeDelta := none, deadlineRangeDelta := none }

def c9ev1 : Event :=
  { uid := none, title := "Meet".toList, description := [],
    scheduled := some (Sched.onDay ⟨2024, 1, 1⟩), duration := some 0,
    recurrence_freq := [], recurrence_interval := 0, recurrence_count := 0,
    tags := ["deadline".toList] }

def c9ev2 : Event :=
  { uid := none, title := "Meet!".toList, description := [],
    scheduled := some (Sched.onDay ⟨2024, 1, 2⟩), duration := some 0,
    recurrence_freq := [], recurrence_interval := 0, recurrence_count := 0,
    tags := ["deadline".toList] }

def c3uid : Str := "u1".toList

def c3entry : CacheEntry :=
  ⟨"Old event".toList, none, none, [], [], 0, 0, []⟩

def c6entry : CacheEntry :=
  ⟨"Kept".toList, none, none, [], [], 0, 0, []⟩

def survivorsAux (calendar_id : Str) (seen : List Str) : List Event → List Event
  | [] => []
  | e :: es =>
    if resolveUid calendar_id e ∈ seen then survivorsAux calendar_id seen es
    else e :: survivorsAux calendar_id (seen ++ [resolveUid calendar_id e]) es

def survivors (calendar_id : Str) (events : List Event) : List Event :=
  survivorsAux calendar_id [] events

/-! ## Association list lemmas -/

def c10sd : OrgDate := ⟨⟨2024, 2, 1⟩, none, none, false, none⟩

def c10node : OrgNode :=
  { idProp := none, heading := "NEXT Shop".toList, body := [], tags := [],
    todo := some ("DONE".toList), effort := Effort.eInt 0,
    scheduled := some c10sd, deadline := none,
    schedRangeDelta := none, deadlineRangeDelta := none }

def c10ev : Event :=
  { uid := none, title := "Done: Shop".toList, description := [],
    scheduled := some (Sched.onDay ⟨2024, 2, 1⟩), duration := some 0,
    recurrence_freq := [], recurrence_interval := 0, recurrence_count := 0,
    tags := ["done".toList] }

/-- Characters that are ASCII and not the NUL separator; the hypothesis the
difference half of the claim needs about the free-text fields. -/
def asciiNulFree (s : Str) : Prop := ∀ c ∈ s, c.toNat < 128 ∧ c ≠ nulChar

instance (s : Str) : Decidable (asciiNulFree s) := by
  unfold asciiNulFree
  infer_instance

/-- Well-formed schedule values: the calendar fields fit the zero-padded
widths the rendering uses (real dates and clock times always do). -/
def wfSched : Option Sched → Prop
  | none => True
  | some (Sched.onDay d) => d.y < 10000 ∧ d.mo < 100 ∧ d.da < 100
  | some (Sched.inst d t) =>
    d.y < 10000 ∧ d.mo < 100 ∧ d.da < 100 ∧ t.h < 100 ∧ t.mi < 100

instance (x : Option Sched) : Decidable (wfSched x) := by
  unfold wfSched
  cases x with
  | none => infer_instance
  | some s => cases s <;> infer_instance

def c4cal : Str := ['w']

def c4e1 : Event :=
  { uid := none, title := ['a'], description := [], scheduled := none,
    duration := none, recurrence_freq := [], recurrence_interval := 0,
    recurrence_count := 0, tags := [] }

def c4e2 : Event :=
  { uid := none, title := ['b'], description := [], scheduled := none,
    duration := none, recurrence_freq := [], recurrence_interval := 0,
    recurrence_count := 0, tags := [] }

/-! ## events.py : the remote record as save_to_calendar stores it and as
from_ical reads it back

The round trip through the calendar store is part of the program, not of a
collaborator: save_to_calendar decides which VEVENT properties to write
(events.py lines 248-280) and from_ical rebuilds an Event from them
(events.py lines 36-80); compare_with_ical compares the desired Event
against that rebuilt one (events.py lines 347-348). -/

/-- A scalar Python value: a str or an int. -/
inductive PyAtom where
  | astr (s : Str)
  | aint (n : Int)
deriving DecidableEq, Repr

/-- A Python value as icalendar hands it back: a scalar, or a list of
scalars — the vRecur mapping stores RRULE values as lists, so from_ical's
recurrence fields are lists while the org-derived Event holds a str and
ints, and Python == across those types is False (distinct constructors
here). -/
inductive PyV where
  | vstr (s : Str)
  | vint (n : Int)
  | vlist (l : List PyAtom)
deriving DecidableEq, Repr

/-- The VEVENT save_to_calendar stores (events.py lines 248-269): RRULE only
when freq and interval are both truthy, COUNT inside it only when truthy,
and DTEND only when it differs from DTSTART — dtend is scheduled plus
duration when both are truthy, else scheduled itself, so a None or zero
duration (the default effort 0 gives timedelta(minutes=0)) stores no DTEND.
DTEND is kept as its offset from DTSTART (the saved dtend is exactly
scheduled + duration, and from_ical recovers the difference). -/
structure IcalRec where
  uid : Option Str
  summary : Str
  description : Str
  dtstart : Option Sched
  dtendOffset : Option Int
  rrule : Option (Str × Int × Option Int)
  categories : List Str
deriving DecidableEq, Repr

def save_to_calendar_rec (e : Event) : IcalRec :=
  { uid := e.uid,
    summary := e.title,
    description := e.description,
    dtstart := e.scheduled,
    dtendOffset := match e.scheduled, e.duration with
      | some _, some d => if d = 0 then none else some d
      | _, _ => none,
    rrule := if e.recurrence_freq ≠ [] ∧ e.recurrence_interval ≠ 0 then
        some (e.recurrence_freq, e.recurrence_interval,
          if e.recurrence_count ≠ 0 then some e.recurrence_count else none)
      else none,
    categories := e.tags }

/-- The fields of the Event that from_ical rebuilds and compare_events then
reads (events.py lines 45-73): SUMMARY, DESCRIPTION, sorted non-empty
CATEGORIES, DTSTART, duration as dtend minus dtstart when DTEND is present
and None otherwise, and the RRULE values as the lists the vRecur mapping
holds (COUNT falls back to the int 0 via the KeyError handler; absent RRULE
leaves the dataclass defaults, the empty str and the int 0). -/
structure IcalView where
  title : Str
  description : Str
  scheduled : Option Sched
  duration : Option Int
  recurrence_freq : PyV
  recurrence_interval : PyV
  recurrence_count : PyV
  tags : List Str
deriving DecidableEq, Repr

def Event.from_ical_view (r : IcalRec) : IcalView :=
  { title := r.summary,
    description := r.description,
    scheduled := r.dtstart,
    duration := match r.dtendOffset, r.dtstart with
      | some d, some _ => some d
      | _, _ => none,
    recurrence_freq := match r.rrule with
      | some (f, _, _) => PyV.vlist [PyAtom.astr f]
      | none => PyV.vstr [],
    recurrence_interval := match r.rrule with
      | some (_, i, _) => PyV.vlist [PyAtom.aint i]
      | none => PyV.vint 0,
    recurrence_count := match r.rrule with
      | some (_, _, some c) => PyV.vlist [PyAtom.aint c]
      | some (_, _, none) => PyV.vint 0
      | none => PyV.vint 0,
    tags := sortStr (r.categories.filter (fun t => t.length > 0)) }

/-- Model of Event.compare_with_ical (events.py lines 347-348): field-by-
field Python equality between the desired Event and the Event rebuilt from
the stored record; the recurrence fields compare a str or int against what
from_ical read, under Python == semantics across types. -/
def compare_with_ical (e : Event) (r : IcalRec) : Bool :=
  let rb := Event.from_ical_view r
  e.title == rb.title && e.scheduled == rb.scheduled
    && e.duration == rb.duration && e.description == rb.description
    && PyV.vstr e.recurrence_freq == rb.recurrence_freq
    && PyV.vint e.recurrence_interval == rb.recurrence_interval
    && PyV.vint e.recurrence_count == rb.recurrence_count
    && e.tags == rb.tags

/-- main.py lines 104-109: when the remote search finds a record for the
event's uid, the loop is a no-op iff compare_with_ical holds; otherwise it
calls update_remote_event, a remote write. -/
def remoteFoundBranch (e : Event) (r : IcalRec) : Outcome :=
  if compare_with_ical e r then Outcome.noopEq else Outcome.updated

/-- An ordinary scheduled heading with no Effort property: effort defaults
to the int 0 (main scenario of claim C2). -/
def c2node : OrgNode :=
  { idProp := none, heading := "Standup".toList, body := [], tags := [],
    todo := none, effort := Effort.eInt 0,
    scheduled := some ⟨⟨2024, 3, 4⟩, none, none, false, none⟩,
    deadline := none, schedRangeDelta := none, deadlineRangeDelta := none }

def c2ev : Event :=
  { uid := none, title := "Standup".toList, description := [],
    scheduled := some (Sched.onDay ⟨2024, 3, 4⟩), duration := some 0,
    recurrence_freq := [], recurrence_interval := 0, recurrence_count := 0,
    tags := [] }

/-- A weekly-repeating heading with a half-hour effort. -/
def c2nodeR : OrgNode :=
  { idProp := none, heading := "Weekly sync".toList, body := [], tags := [],
    todo := none, effort := Effort.eInt 30,
    scheduled := some ⟨⟨2024, 3, 4⟩, none, none, true,
      some [RTok.tok "+".toList, RTok.num 1, RTok.tok "w".toList]⟩,
    deadline := none, schedRangeDelta := none, deadlineRangeDelta := none }

def c2evR : Event :=
  { uid := none, title := "Weekly sync".toList, description := [],
    scheduled := some (Sched.onDay ⟨2024, 3, 4⟩), duration := some 30,
    recurrence_freq := "WEEKLY".toList, recurrence_interval := 1,
    recurrence_count := 0, tags := [] }

/-- Claim C1: for every calendar configuration, process_calendar invokes
load_all_headings_from_mixed_list with only one argument although the
signature requires both mixed_list and cutoff_date, so the call raises
TypeError before any cache read or remote call, and process_calendar never
completes normally for any input: the run performs no actions and ends with
the TypeError. -/
theorem c1_process_calendar_always_type_error (calendar_id : Str)
    (loaded : List OrgNode) (hashKey : Option Sched → Int)
    (cacheExists cacheIsFile remoteFound : Bool) (diskDoc : Cache)
    (remote0 : Remote) (writeOk : Str → Bool) :
    process_calendar_model calendar_id loaded hashKey cacheExists cacheIsFile
      remoteFound diskDoc remote0 writeOk = ([], some PyError.typeError) := rfl

/-! ## Claim C8 -/

/-- Claim C8 counterexample: a timestamp with start 10:30 and end 10:10 has
an end clock time numerically earlier than the start clock time, yet the
code compares only the hour fields, adds no day, and returns minus twenty
minutes instead of the day-adjusted duration the claim prescribes. -/
theorem c8_counterexample :
    (10 * 60 + 10 < 10 * 60 + 30) ∧
    Event.get_duration ⟨⟨2024, 1, 1⟩, some ⟨10, 30⟩, some ⟨10, 10⟩, false, none⟩
      none (Effort.eInt 0) = Except.ok (some (-20)) ∧
    ((-20 : Int) ≠ (10 * 60 + 10 : Int) + 1440 - (10 * 60 + 30)) := by
  refine ⟨by decide, by decide, by decide⟩

/-- Claim C8 amended: in the start-end branch of Event.get_duration one day
is added to the end instant exactly when the end hour field is strictly less
than the start hour field (not whenever the full end clock time is earlier);
in particular a start of 23:00 with an end of 01:00 on the same nominal day
yields a duration of exactly two hours. -/
theorem c8_amended_hour_comparison (d : Date) (st et : DayTime) (rp : Bool)
    (r : Option (List RTok)) (rd : Option Int) (eff : Effort) :
    (et.h < st.h →
      Event.get_duration ⟨d, some st, some et, rp, r⟩ rd eff =
        Except.ok (some ((et.h * 60 + et.mi : Int) + 1440 - (st.h * 60 + st.mi)))) ∧
    (¬ et.h < st.h →
      Event.get_duration ⟨d, some st, some et, rp, r⟩ rd eff =
        Except.ok (some ((et.h * 60 + et.mi : Int) - (st.h * 60 + st.mi)))) ∧
    Event.get_duration ⟨d, some ⟨23, 0⟩, some ⟨1, 0⟩, rp, r⟩ rd eff =
      Except.ok (some 120) := by
  refine ⟨fun h => ?_, fun h => ?_, ?_⟩
  · simp only [Event.get_duration, if_pos h]
  · simp only [Event.get_duration, if_neg h]
  · simp only [Event.get_duration]
    norm_num

/-- Claim C8 amended, witness: the midnight-crossing rule applied at the
concrete 23:00 to 01:00 input. -/
theorem c8_amended_witness :
    (1 < 23) ∧
    Event.get_duration ⟨⟨2024, 1, 1⟩, some ⟨23, 0⟩, some ⟨1, 0⟩, false, none⟩
      none (Effort.eInt 0) =
      Except.ok (some ((1 * 60 + 0 : Int) + 1440 - (23 * 60 + 0))) :=
  ⟨by decide,
   (c8_amended_hour_comparison ⟨2024, 1, 1⟩ ⟨23, 0⟩ ⟨1, 0⟩ false none none
     (Effort.eInt 0)).1 (by decide)⟩

/-! ## Claim C9 -/

/-- Claim C9: deriving a heading with a scheduled time and a distinct
deadline yields exactly two Events, and only the deadline variant's title
carries the appended marker — but, because dataclasses.replace copies the
reference to the tags list, the in-place append of the deadline tag and the
in-place sort also mutate the tag list of the already-yielded scheduled
variant: both Events end with the same tag list containing the deadline
marker, contradicting the claim that the scheduled variant's tag set is
unchanged. -/
theorem c9_deadline_clone_shares_tags :
    Event.from_org c9node = Except.ok [c9ev1, c9ev2] ∧
    c9ev1.title = "Meet".toList ∧ c9ev2.title = "Meet!".toList ∧
    "deadline".toList ∈ c9ev2.tags ∧
    "deadline".toList ∈ c9ev1.tags ∧ c9ev1.tags = c9ev2.tags := by
  refine ⟨by decide, by decide, by decide, by decide, by decide, by decide⟩

/-! ## Claim C10 counterexample -/

/-- Claim C10 counterexample: the heading starts with the keyword NEXT, and
clean_up_heading removes every occurrence of NEXT in the heading (str.replace
replaces all occurrences), not only the leading one, so the later NEXT is
not preserved. -/
theorem c10_counterexample :
    clean_up_heading_default "NEXT call NEXT week".toList = "call  week".toList ∧
    clean_up_heading_default "NEXT call NEXT week".toList ≠ "call NEXT week".toList := by
  refine ⟨by decide, by decide⟩

/-! ## Claim C3 -/

/-- Claim C3: an identity recorded in the previously persisted snapshot,
absent from the desired set, and present in the remote store should trigger
exactly one delete call — but read_cache_file refuses the snapshot file the
program itself writes (the joined path ends in .bin, so the condition
not endswith .yaml or endswith .yml is true and None is returned), the
loaded snapshot is empty, and the run issues no delete: the remote record
survives untouched while the identity is dropped from the new snapshot. -/
theorem c3_stale_delete_never_fires :
    (runReconcile "work".toList true true true [(c3uid, c3entry)] []
      [(c3uid, c3entry)] (fun _ => true)).actions =
      [RAction.readCache, RAction.writeCacheEmpty, RAction.saveNew []] ∧
    lookupA (runReconcile "work".toList true true true [(c3uid, c3entry)] []
      [(c3uid, c3entry)] (fun _ => true)).remote c3uid = some c3entry ∧
    lookupA (runReconcile "work".toList true true true [(c3uid, c3entry)] []
      [(c3uid, c3entry)] (fun _ => true)).newCache c3uid = none := by
  refine ⟨by decide, by decide, by decide⟩

/-! ## The snapshot file the program writes can never be read back: the
filename ends in .bin while read_cache_file only accepts .yaml -/

lemma read_cache_bin_none (e i : Bool) (calendar_id : Str) (d : Cache) :
    read_cache_file e i (cacheFileName calendar_id) d = none := by
  cases e with
  | false => rfl
  | true =>
    cases i with
    | false => rfl
    | true =>
      have hya : listEndsWith (pathJoin CACHE_DIR (cacheFileName calendar_id))
          ['.', 'y', 'a', 'm', 'l'] = false := by
        unfold listEndsWith pathJoin cacheFileName CACHE_DIR
        have hb : (".bin".toList : List Char) = ['.', 'b', 'i', 'n'] := rfl
        rw [hb]
        simp only [List.reverse_append, List.reverse_cons, List.append_assoc]
        simp [listStartsWith]
      simp [read_cache_file, hya]

/-- With the .bin snapshot filename the read always yields None, so a run
against a resolvable remote reduces to: empty loaded snapshot, the event
fold, an empty deletion pass, and the final snapshot write. -/
lemma runReconcile_bin_unfold (calendar_id : Str) (ce ci : Bool) (disk : Cache)
    (events : List Event) (remote0 : Remote) (ok : Str → Bool) :
    runReconcile calendar_id ce ci true disk events remote0 ok =
      (let s0 : RunState := ⟨[], [], [], remote0,
        [RAction.readCache, RAction.writeCacheEmpty], []⟩
       let s1 := events.foldl (stepEvent calendar_id [] ok) s0
       let s2 := deleteStale s1
       { s2 with actions := s2.actions ++ [RAction.saveNew s2.newCache] }) := by
  unfold runReconcile
  rw [read_cache_bin_none]
  rfl

/-! ## Claim C6 counterexample -/

/-- Claim C6 counterexample: the snapshot path exists as a regular readable
file holding the prior snapshot, yet the load fails — read_cache_file
rejects the .bin filename the program itself builds — so the snapshot is
unreadable at the start of the run.  The claim says the calendar run aborts
with no write of the snapshot file, but the run immediately writes an empty
snapshot over the prior one, continues, and writes the new snapshot at the
end. -/
theorem c6_counterexample :
    RAction.writeCacheEmpty ∈
      (runReconcile "cal6".toList true true true [("k6".toList, c6entry)] []
        [] (fun _ => true)).actions ∧
    RAction.saveNew [] ∈
      (runReconcile "cal6".toList true true true [("k6".toList, c6entry)] []
        [] (fun _ => true)).actions := by
  refine ⟨by decide, by decide⟩

/-! ## Identity resolution as a standalone pass: the events that survive the
duplicate-UID filter of the loop, in order, with the first occurrence of
each identity kept -/

lemma lookupA_append_of_some {m1 m2 : List (Str × CacheEntry)} {u : Str}
    {v : CacheEntry} (h : lookupA m1 u = some v) :
    lookupA (m1 ++ m2) u = some v := by
  induction m1 with
  | nil => simp [lookupA] at h
  | cons kv rest ih =>
    obtain ⟨k, w⟩ := kv
    by_cases hk : k = u
    · simp [lookupA, hk] at h ⊢
      exact h
    · simp [lookupA, hk] at h ⊢
      exact ih h

lemma lookupA_append_of_none {m1 m2 : List (Str × CacheEntry)} {u : Str}
    (h : lookupA m1 u = none) :
    lookupA (m1 ++ m2) u = lookupA m2 u := by
  induction m1 with
  | nil => simp
  | cons kv rest ih =>
    obtain ⟨k, w⟩ := kv
    by_cases hk : k = u
    · simp [lookupA, hk] at h
    · simp [lookupA, hk] at h ⊢
      exact ih h

lemma lookupA_append_single_ne {m : List (Str × CacheEntry)} {u u2 : Str}
    {c : CacheEntry} (h : u ≠ u2) :
    lookupA (m ++ [(u2, c)]) u = lookupA m u := by
  cases hm : lookupA m u with
  | some v => exact lookupA_append_of_some hm
  | none =>
    rw [lookupA_append_of_none hm]
    have h2 : ¬ u2 = u := fun hh => h hh.symm
    simp [lookupA, h2]

lemma lookupA_append_single_self {m : List (Str × CacheEntry)} {u : Str}
    {c : CacheEntry} (h : lookupA m u = none) :
    lookupA (m ++ [(u, c)]) u = some c := by
  rw [lookupA_append_of_none h]
  simp [lookupA]

lemma lookupA_setA_self {m : List (Str × CacheEntry)} {u : Str}
    {r c : CacheEntry} (h : lookupA m u = some r) :
    lookupA (setA m u c) u = some c := by
  induction m with
  | nil => simp [lookupA] at h
  | cons kv rest ih =>
    obtain ⟨k, w⟩ := kv
    by_cases hk : k = u
    · simp [lookupA, setA, hk]
    · simp [lookupA, setA, hk] at h ⊢
      exact ih h

lemma lookupA_setA_ne {m : List (Str × CacheEntry)} {u u2 : Str}
    {c : CacheEntry} (h : u ≠ u2) :
    lookupA (setA m u2 c) u = lookupA m u := by
  induction m with
  | nil => simp [setA, lookupA]
  | cons kv rest ih =>
    obtain ⟨k, w⟩ := kv
    by_cases hk : k = u2
    · subst hk
      have h2 : ¬ k = u := fun hh => h (hh.symm)
      simp [setA, lookupA, h2]
    · by_cases hk2 : k = u
      · simp [setA, lookupA, hk, hk2, h]
      · simp [setA, lookupA, hk, hk2]
        exact ih

lemma lookupA_isSome_iff_mem_keys {m : List (Str × CacheEntry)} {u : Str} :
    (lookupA m u).isSome = true ↔ u ∈ m.map Prod.fst := by
  induction m with
  | nil => simp [lookupA]
  | cons kv rest ih =>
    obtain ⟨k, w⟩ := kv
    by_cases hk : k = u
    · subst hk
      constructor
      · intro _
        exact List.mem_cons_self _ _
      · intro _
        simp [lookupA]
    · have h2 : ¬ k = u := hk
      have h3 : ¬ u = k := fun hh => hk hh.symm
      simp only [lookupA, if_neg h2, List.map_cons, List.mem_cons]
      rw [ih]
      constructor
      · intro hmem
        exact Or.inr hmem
      · intro hmem
        cases hmem with
        | inl heq => exact absurd heq h3
        | inr hmem => exact hmem

/-- compare_events is exactly content equality. -/
lemma compare_events_iff {a b : CacheEntry} : compare_events a b = true ↔ a = b := by
  cases a
  cases b
  simp [compare_events, CacheEntry.mk.injEq, and_assoc]

/-! ## Loop-step lemmas -/

lemma stepEvent_dup {calendar_id : Str} {oldC : Cache} {ok : Str → Bool}
    {s : RunState} {ev : Event} (h : resolveUid calendar_id ev ∈ s.processed) :
    stepEvent calendar_id oldC ok s ev = s := by
  unfold stepEvent
  rw [if_pos h]

lemma stepEvent_fresh_processed {calendar_id : Str} {oldC : Cache}
    {ok : Str → Bool} {s : RunState} {ev : Event}
    (h : resolveUid calendar_id ev ∉ s.processed) :
    (stepEvent calendar_id oldC ok s ev).processed =
      s.processed ++ [resolveUid calendar_id ev] := by
  unfold stepEvent
  rw [if_neg h]
  dsimp only
  repeat' split
  all_goals rfl

lemma stepEvent_fresh_newCache {calendar_id : Str} {oldC : Cache}
    {ok : Str → Bool} {s : RunState} {ev : Event}
    (h : resolveUid calendar_id ev ∉ s.processed) :
    (stepEvent calendar_id oldC ok s ev).newCache =
      s.newCache ++ [(resolveUid calendar_id ev, ev.content)] := by
  unfold stepEvent
  rw [if_neg h]
  dsimp only
  repeat' split
  all_goals rfl

lemma stepEvent_fresh_outcomes_length {calendar_id : Str} {oldC : Cache}
    {ok : Str → Bool} {s : RunState} {ev : Event}
    (h : resolveUid calendar_id ev ∉ s.processed) :
    (stepEvent calendar_id oldC ok s ev).outcomes.length =
      s.outcomes.length + 1 := by
  unfold stepEvent
  rw [if_neg h]
  dsimp only
  repeat' split
  all_goals simp

lemma stepEvent_oldRemaining_nil {calendar_id : Str} {oldC : Cache}
    {ok : Str → Bool} {s : RunState} {ev : Event} (h : s.oldRemaining = []) :
    (stepEvent calendar_id oldC ok s ev).oldRemaining = [] := by
  unfold stepEvent
  dsimp only
  repeat' split
  all_goals simp [h]

lemma stepEvent_actions_spec (calendar_id : Str) (oldC : Cache)
    (ok : Str → Bool) (s : RunState) (ev : Event) :
    ∃ l, (stepEvent calendar_id oldC ok s ev).actions = s.actions ++ l ∧
      (∀ c : Cache, RAction.saveNew c ∉ l) ∧
      (∀ u, RAction.deleteCall u ∉ l) ∧
      RAction.readCache ∉ l ∧ RAction.writeCacheEmpty ∉ l := by
  unfold stepEvent
  dsimp only
  repeat' split
  all_goals
    first
      | exact ⟨[], (List.append_nil _).symm, by simp, by simp, by simp, by simp⟩
      | exact ⟨_, rfl, by simp, by simp, by simp, by simp⟩

lemma foldStep_actions_spec (calendar_id : Str) (oldC : Cache)
    (ok : Str → Bool) :
    ∀ (events : List Event) (s : RunState),
    ∃ l, ((events.foldl (stepEvent calendar_id oldC ok) s).actions = s.actions ++ l ∧
      (∀ c : Cache, RAction.saveNew c ∉ l) ∧
      (∀ u, RAction.deleteCall u ∉ l) ∧
      RAction.readCache ∉ l ∧ RAction.writeCacheEmpty ∉ l) := by
  intro events
  induction events with
  | nil => exact fun s => ⟨[], by simp, by simp, by simp, by simp, by simp⟩
  | cons e es ih =>
    intro s
    obtain ⟨l1, h1, hs1, hd1, hr1, hw1⟩ :=
      stepEvent_actions_spec calendar_id oldC ok s e
    obtain ⟨l2, h2, hs2, hd2, hr2, hw2⟩ :=
      ih (stepEvent calendar_id oldC ok s e)
    refine ⟨l1 ++ l2, ?_, ?_, ?_, ?_, ?_⟩
    · simp only [List.foldl_cons, h2, h1, List.append_assoc]
    · intro c hc
      rcases List.mem_append.mp hc with hc | hc
      · exact hs1 c hc
      · exact hs2 c hc
    · intro u hu
      rcases List.mem_append.mp hu with hu | hu
      · exact hd1 u hu
      · exact hd2 u hu
    · intro hu
      rcases List.mem_append.mp hu with hu | hu
      · exact hr1 hu
      · exact hr2 hu
    · intro hu
      rcases List.mem_append.mp hu with hu | hu
      · exact hw1 hu
      · exact hw2 hu

lemma delStep_actions_spec (st : RunState) (u : Str) :
    ∃ l, (delStep st u).actions = st.actions ++ l ∧
      (∀ c : Cache, RAction.saveNew c ∉ l) ∧
      RAction.readCache ∉ l ∧ RAction.writeCacheEmpty ∉ l := by
  unfold delStep
  repeat' split
  all_goals exact ⟨_, rfl, by simp, by simp, by simp⟩

lemma delStep_frame (st : RunState) (u : Str) :
    (delStep st u).newCache = st.newCache ∧
    (delStep st u).processed = st.processed ∧
    (delStep st u).outcomes = st.outcomes ∧
    (delStep st u).oldRemaining = st.oldRemaining := by
  unfold delStep
  repeat' split
  all_goals exact ⟨rfl, rfl, rfl, rfl⟩

lemma delFold_frame :
    ∀ (l : List Str) (st : RunState),
    ((l.foldl delStep st).newCache = st.newCache ∧
     (l.foldl delStep st).processed = st.processed ∧
     (l.foldl delStep st).outcomes = st.outcomes) ∧
    ∃ la, (l.foldl delStep st).actions = st.actions ++ la ∧
      (∀ c : Cache, RAction.saveNew c ∉ la) ∧
      RAction.readCache ∉ la ∧ RAction.writeCacheEmpty ∉ la := by
  intro l
  induction l with
  | nil =>
    exact fun st => ⟨⟨rfl, rfl, rfl⟩, [], by simp, by simp, by simp, by simp⟩
  | cons u us ih =>
    intro st
    obtain ⟨⟨hn, hp, ho⟩, la2, h2, hs2, hr2, hw2⟩ := ih (delStep st u)
    obtain ⟨la1, h1, hs1, hr1, hw1⟩ := delStep_actions_spec st u
    obtain ⟨fn, fp, fo, _⟩ := delStep_frame st u
    refine ⟨⟨?_, ?_, ?_⟩, la1 ++ la2, ?_, ?_, ?_, ?_⟩
    · simpa [hn] using fn
    · simpa [hp] using fp
    · simpa [ho] using fo
    · simp only [List.foldl_cons, h2, h1, List.append_assoc]
    · intro c hc
      rcases List.mem_append.mp hc with hc | hc
      · exact hs1 c hc
      · exact hs2 c hc
    · intro hu
      rcases List.mem_append.mp hu with hu | hu
      · exact hr1 hu
      · exact hr2 hu
    · intro hu
      rcases List.mem_append.mp hu with hu | hu
      · exact hw1 hu
      · exact hw2 hu

/-! ## The event fold builds exactly the deduplicated snapshot -/

lemma foldStep_core (calendar_id : Str) (oldC : Cache) (ok : Str → Bool) :
    ∀ (events : List Event) (s : RunState),
    s.processed = s.newCache.map Prod.fst →
    ((events.foldl (stepEvent calendar_id oldC ok) s).newCache =
       s.newCache ++ (survivorsAux calendar_id s.processed events).map
         (fun e => (resolveUid calendar_id e, e.content)) ∧
     (events.foldl (stepEvent calendar_id oldC ok) s).processed =
       (events.foldl (stepEvent calendar_id oldC ok) s).newCache.map Prod.fst ∧
     (events.foldl (stepEvent calendar_id oldC ok) s).outcomes.length =
       s.outcomes.length + (survivorsAux calendar_id s.processed events).length) := by
  intro events
  induction events with
  | nil =>
    intro s hs
    refine ⟨by simp [survivorsAux], by simpa using hs, by simp [survivorsAux]⟩
  | cons e es ih =>
    intro s hs
    by_cases hdup : resolveUid calendar_id e ∈ s.processed
    · have hstep : stepEvent calendar_id oldC ok s e = s := stepEvent_dup hdup
      simp only [List.foldl_cons, hstep, survivorsAux, if_pos hdup]
      exact ih s hs
    · have hp := @stepEvent_fresh_processed calendar_id oldC ok s e hdup
      have hn := @stepEvent_fresh_newCache calendar_id oldC ok s e hdup
      have ho := @stepEvent_fresh_outcomes_length calendar_id oldC ok s e hdup
      have hs2 : (stepEvent calendar_id oldC ok s e).processed =
          (stepEvent calendar_id oldC ok s e).newCache.map Prod.fst := by
        rw [hp, hn, List.map_append, hs]
        rfl
      obtain ⟨ihn, ihp, iho⟩ := ih (stepEvent calendar_id oldC ok s e) hs2
      refine ⟨?_, ihp, ?_⟩
      · rw [List.foldl_cons]
        rw [ihn, hn, hp]
        simp only [survivorsAux, if_neg hdup, List.map_cons, List.append_assoc,
          List.cons_append, List.nil_append]
      · rw [List.foldl_cons]
        rw [iho, ho, hp]
        simp only [survivorsAux, if_neg hdup, List.length_cons]
        omega

/-! ## Properties of the duplicate filter -/

lemma survivorsAux_sublist (calendar_id : Str) :
    ∀ (events : List Event) (seen : List Str),
    (survivorsAux calendar_id seen events).Sublist events := by
  intro events
  induction events with
  | nil => intro seen; simp [survivorsAux]
  | cons e es ih =>
    intro seen
    by_cases hdup : resolveUid calendar_id e ∈ seen
    · simp only [survivorsAux, if_pos hdup]
      exact (ih seen).cons e
    · simp only [survivorsAux, if_neg hdup]
      exact (ih (seen ++ [resolveUid calendar_id e])).cons₂ e

lemma survivorsAux_filter (calendar_id : Str) (u : Str) :
    ∀ (events : List Event) (seen : List Str),
    (survivorsAux calendar_id seen events).filter
        (fun e => resolveUid calendar_id e == u) =
      if u ∈ seen then []
      else (events.filter (fun e => resolveUid calendar_id e == u)).take 1 := by
  intro events
  induction events with
  | nil => intro seen; simp [survivorsAux]
  | cons e es ih =>
    intro seen
    by_cases hdup : resolveUid calendar_id e ∈ seen
    · simp only [survivorsAux, if_pos hdup]
      rw [ih seen]
      by_cases hu : u ∈ seen
      · simp only [if_pos hu]
      · have hne : ¬ (resolveUid calendar_id e == u) = true := by
          intro hb
          exact hu (beq_iff_eq.mp hb ▸ hdup)
        simp only [if_neg hu, List.filter_cons, hne]
        simp
    · simp only [survivorsAux, if_neg hdup]
      by_cases heq : resolveUid calendar_id e = u
      · subst heq
        rw [List.filter_cons, List.filter_cons]
        simp only [beq_self_eq_true, if_pos]
        rw [ih (seen ++ [resolveUid calendar_id e])]
        simp [hdup]
      · have hne : ¬ (resolveUid calendar_id e == u) = true := by
          simp [heq]
        rw [List.filter_cons, List.filter_cons]
        simp only [hne]
        rw [ih (seen ++ [resolveUid calendar_id e])]
        have hns : ¬ u = resolveUid calendar_id e := fun hh => heq hh.symm
        have hiff : (u ∈ seen ++ [resolveUid calendar_id e]) ↔ u ∈ seen := by
          simp [hns]
        by_cases hu : u ∈ seen
        · simp [hu, hiff]
        · simp only [if_neg hu, if_neg (fun hc => hu (hiff.mp hc))]
          simp

lemma deleteStale_frame (s : RunState) :
    (deleteStale s).newCache = s.newCache ∧
    (deleteStale s).processed = s.processed ∧
    (deleteStale s).outcomes = s.outcomes ∧
    ∃ la, (deleteStale s).actions = s.actions ++ la ∧
      ∀ c : Cache, RAction.saveNew c ∉ la := by
  obtain ⟨⟨hn, hp, ho⟩, la, hla, hsa, _, _⟩ := delFold_frame s.oldRemaining s
  exact ⟨hn, hp, ho, la, hla, hsa⟩

/-! ## Shape of a full run with a resolvable remote calendar -/

lemma runReconcile_spec (calendar_id : Str) (ce ci : Bool) (disk : Cache)
    (events : List Event) (remote0 : Remote) (ok : Str → Bool) :
    (runReconcile calendar_id ce ci true disk events remote0 ok).newCache =
      (survivors calendar_id events).map
        (fun e => (resolveUid calendar_id e, e.content)) ∧
    (runReconcile calendar_id ce ci true disk events remote0 ok).outcomes.length =
      (survivors calendar_id events).length ∧
    ∃ pre, (runReconcile calendar_id ce ci true disk events remote0 ok).actions =
        pre ++ [RAction.saveNew
          (runReconcile calendar_id ce ci true disk events remote0 ok).newCache] ∧
      ∀ c : Cache, RAction.saveNew c ∉ pre := by
  unfold runReconcile
  cases hrd : read_cache_file ce ci (cacheFileName calendar_id) disk with
  | none =>
    simp only [hrd]
    set s0 : RunState :=
      ⟨[], [], ([] : Cache).map Prod.fst, remote0,
        [RAction.readCache, RAction.writeCacheEmpty], []⟩ with hs0
    obtain ⟨hc1, hc2, hc3⟩ := foldStep_core calendar_id [] ok events s0 rfl
    obtain ⟨hdn, hdp, hdo, la, hla, hsa⟩ :=
      deleteStale_frame (events.foldl (stepEvent calendar_id [] ok) s0)
    obtain ⟨l1, hl1, hls1, _, _, _⟩ := foldStep_actions_spec calendar_id [] ok events s0
    refine ⟨?_, ?_, ?_⟩
    · simpa [hdn, survivors] using hc1
    · simpa [hdo, survivors] using hc3
    · refine ⟨_, rfl, ?_⟩
      intro c hc
      rw [hla, hl1] at hc
      simp only [hs0, List.append_assoc, List.mem_append] at hc
      rcases hc with hc | hc | hc
      · simp at hc
      · exact hls1 c hc
      · exact hsa c hc
  | some oc =>
    simp only [hrd]
    set s0 : RunState :=
      ⟨[], [], oc.map Prod.fst, remote0, [RAction.readCache], []⟩ with hs0
    obtain ⟨hc1, hc2, hc3⟩ := foldStep_core calendar_id oc ok events s0 rfl
    obtain ⟨hdn, hdp, hdo, la, hla, hsa⟩ :=
      deleteStale_frame (events.foldl (stepEvent calendar_id oc ok) s0)
    obtain ⟨l1, hl1, hls1, _, _, _⟩ := foldStep_actions_spec calendar_id oc ok events s0
    refine ⟨?_, ?_, ?_⟩
    · simpa [hdn, survivors] using hc1
    · simpa [hdo, survivors] using hc3
    · refine ⟨_, rfl, ?_⟩
      intro c hc
      rw [hla, hl1] at hc
      simp only [hs0, List.append_assoc, List.mem_append] at hc
      rcases hc with hc | hc | hc
      · simp at hc
      · exact hls1 c hc
      · exact hsa c hc

/-! ## Claim C5 -/

/-- Claim C5: when several desired Events resolve to the same identity,
exactly one survives into the processed set (the new snapshot holds exactly
the surviving events), the survivor is the first occurrence in input order
(the filter of the survivors at any identity is the first element of the
filter of the input), and the surviving events keep their original relative
order (the survivors form a sublist of the input). -/
theorem c5_first_occurrence_dedup (calendar_id : Str) (ce ci : Bool)
    (disk : Cache) (events : List Event) (remote0 : Remote) (ok : Str → Bool) :
    (runReconcile calendar_id ce ci true disk events remote0 ok).newCache =
      (survivors calendar_id events).map
        (fun e => (resolveUid calendar_id e, e.content)) ∧
    (survivors calendar_id events).Sublist events ∧
    ∀ u : Str,
      (survivors calendar_id events).filter
          (fun e => resolveUid calendar_id e == u) =
        (events.filter (fun e => resolveUid calendar_id e == u)).take 1 := by
  refine ⟨(runReconcile_spec calendar_id ce ci disk events remote0 ok).1,
    survivorsAux_sublist calendar_id events [], fun u => ?_⟩
  have h := survivorsAux_filter calendar_id u events []
  simpa [survivors] using h

/-- Claim C5 witness: two events with the same explicit identifier and
different descriptions; the first one survives. -/
theorem c5_witness :
    (runReconcile "c".toList true true true [] 
      [{ uid := some "u".toList, title := "A".toList, description := "one".toList,
         scheduled := none, duration := none, recurrence_freq := [],
         recurrence_interval := 0, recurrence_count := 0, tags := [] },
       { uid := some "u".toList, title := "B".toList, description := "two".toList,
         scheduled := none, duration := none, recurrence_freq := [],
         recurrence_interval := 0, recurrence_count := 0, tags := [] }]
      [] (fun _ => true)).newCache =
      (survivors "c".toList
        [{ uid := some "u".toList, title := "A".toList, description := "one".toList,
           scheduled := none, duration := none, recurrence_freq := [],
           recurrence_interval := 0, recurrence_count := 0, tags := [] },
         { uid := some "u".toList, title := "B".toList, description := "two".toList,
           scheduled := none, duration := none, recurrence_freq := [],
           recurrence_interval := 0, recurrence_count := 0, tags := [] }]).map
        (fun e => (resolveUid "c".toList e, e.content)) :=
  (c5_first_occurrence_dedup "c".toList true true [] _ [] (fun _ => true)).1

/-! ## Claim C6 amended -/

/-- Claim C6 amended: when the snapshot file exists as a regular file whose
load fails (read_cache_file returns None for the .bin path main.py builds),
the run does not abort and does not leave the snapshot file untouched: it
immediately overwrites the snapshot file with an empty snapshot, proceeds
exactly as a run whose snapshot file is missing (with an empty loaded
snapshot), and persists the new snapshot at the end of the run. -/
theorem c6_amended_unreadable_snapshot_no_abort (calendar_id : Str)
    (disk : Cache) (events : List Event) (remote0 : Remote) (ok : Str → Bool) :
    RAction.writeCacheEmpty ∈
      (runReconcile calendar_id true true true disk events remote0 ok).actions ∧
    (∃ pre, (runReconcile calendar_id true true true disk events remote0 ok).actions =
      pre ++ [RAction.saveNew
        (runReconcile calendar_id true true true disk events remote0 ok).newCache]) ∧
    runReconcile calendar_id true true true disk events remote0 ok =
      runReconcile calendar_id false false true [] events remote0 ok := by
  refine ⟨?_, ?_, ?_⟩
  · unfold runReconcile
    have hrd : read_cache_file true true (cacheFileName calendar_id) disk = none :=
      read_cache_bin_none true true calendar_id disk
    simp only [hrd]
    set s0 : RunState :=
      ⟨[], [], ([] : Cache).map Prod.fst, remote0,
        [RAction.readCache, RAction.writeCacheEmpty], []⟩ with hs0
    obtain ⟨l1, hl1, _, _, _, _⟩ := foldStep_actions_spec calendar_id [] ok events s0
    obtain ⟨_, _, _, la, hla, _⟩ :=
      deleteStale_frame (events.foldl (stepEvent calendar_id [] ok) s0)
    rw [hla, hl1]
    simp [hs0]
  · obtain ⟨_, _, pre, hpre, _⟩ :=
      runReconcile_spec calendar_id true true disk events remote0 ok
    exact ⟨pre, hpre⟩
  · rw [runReconcile_bin_unfold, runReconcile_bin_unfold]

/-! ## Failed writes are logged -/

lemma logging_append_case {acts : List RAction} {outs : List (Str × Outcome)}
    {ok : Str → Bool}
    (hinv : ∀ u o, (u, o) ∈ outs →
      (o = Outcome.updated ∨ o = Outcome.created) → ok u = false →
      RAction.logError u ∈ acts)
    (u2 : Str) (x : Outcome) (l : List RAction)
    (hx : (x = Outcome.updated ∨ x = Outcome.created) → ok u2 = false →
      RAction.logError u2 ∈ acts ++ l) :
    ∀ u o, (u, o) ∈ outs ++ [(u2, x)] →
      (o = Outcome.updated ∨ o = Outcome.created) → ok u = false →
      RAction.logError u ∈ acts ++ l := by
  intro u o hmem himp hok
  rcases List.mem_append.mp hmem with h | h
  · exact List.mem_append_left _ (hinv u o h himp hok)
  · simp only [List.mem_singleton, Prod.mk.injEq] at h
    obtain ⟨hu, ho⟩ := h
    subst hu
    subst ho
    exact hx himp hok

lemma stepEvent_logging (calendar_id : Str) (oldC : Cache) (ok : Str → Bool)
    (s : RunState) (ev : Event)
    (hinv : ∀ u o, (u, o) ∈ s.outcomes →
      (o = Outcome.updated ∨ o = Outcome.created) → ok u = false →
      RAction.logError u ∈ s.actions) :
    ∀ u o, (u, o) ∈ (stepEvent calendar_id oldC ok s ev).outcomes →
      (o = Outcome.updated ∨ o = Outcome.created) → ok u = false →
      RAction.logError u ∈ (stepEvent calendar_id oldC ok s ev).actions := by
  unfold stepEvent
  dsimp only
  by_cases hdup : resolveUid calendar_id ev ∈ s.processed
  · rw [if_pos hdup]
    exact hinv
  · rw [if_neg hdup]
    by_cases hskip : resolveUid calendar_id ev ∈ s.oldRemaining ∧
        lookupA oldC (resolveUid calendar_id ev) = some ev.content
    · rw [if_pos hskip]
      intro u o hmem himp hok
      rcases List.mem_append.mp hmem with h | h
      · exact hinv u o h himp hok
      · simp only [List.mem_singleton, Prod.mk.injEq] at h
        obtain ⟨hu, ho⟩ := h
        subst hu
        subst ho
        exact absurd himp (by decide)
    · rw [if_neg hskip]
      cases hrem : lookupA s.remote (resolveUid calendar_id ev) with
      | some r =>
        dsimp only
        by_cases hcmp : compare_events ev.content r = true
        · rw [if_pos hcmp]
          refine logging_append_case hinv _ _ _ (fun himp _ => absurd himp (by decide))
        · rw [if_neg hcmp]
          by_cases hok2 : ok (resolveUid calendar_id ev) = true
          · rw [if_pos hok2]
            refine logging_append_case hinv _ _ _ (fun _ hok => ?_)
            simp [hok2] at hok
          · rw [if_neg hok2]
            refine logging_append_case hinv _ _ _ (fun _ _ => by simp)
      | none =>
        dsimp only
        by_cases hok2 : ok (resolveUid calendar_id ev) = true
        · rw [if_pos hok2]
          refine logging_append_case hinv _ _ _ (fun _ hok => ?_)
          simp [hok2] at hok
        · rw [if_neg hok2]
          refine logging_append_case hinv _ _ _ (fun _ _ => by simp)

lemma foldStep_logging (calendar_id : Str) (oldC : Cache) (ok : Str → Bool) :
    ∀ (events : List Event) (s : RunState),
    (∀ u o, (u, o) ∈ s.outcomes →
      (o = Outcome.updated ∨ o = Outcome.created) → ok u = false →
      RAction.logError u ∈ s.actions) →
    ∀ u o, (u, o) ∈ (events.foldl (stepEvent calendar_id oldC ok) s).outcomes →
      (o = Outcome.updated ∨ o = Outcome.created) → ok u = false →
      RAction.logError u ∈
        (events.foldl (stepEvent calendar_id oldC ok) s).actions := by
  intro events
  induction events with
  | nil => exact fun s hinv => hinv
  | cons e es ih =>
    intro s hinv
    exact ih (stepEvent calendar_id oldC ok s e)
      (stepEvent_logging calendar_id oldC ok s e hinv)

/-! ## Claim C7 -/

/-- Claim C7: a failed create or update call for one identity is logged,
that identity's entry in the new snapshot still holds the desired content
(the snapshot is exactly the map of the surviving desired events, whatever
the write outcomes), processing continues to every remaining event (one
outcome per surviving event), and the new snapshot is written exactly once,
as the last action, after all create, update and delete attempts. -/
theorem c7_failed_writes_isolated (calendar_id : Str) (ce ci : Bool)
    (disk : Cache) (events : List Event) (remote0 : Remote) (ok : Str → Bool) :
    (runReconcile calendar_id ce ci true disk events remote0 ok).newCache =
      (survivors calendar_id events).map
        (fun e => (resolveUid calendar_id e, e.content)) ∧
    (runReconcile calendar_id ce ci true disk events remote0 ok).outcomes.length =
      (survivors calendar_id events).length ∧
    (∃ pre, (runReconcile calendar_id ce ci true disk events remote0 ok).actions =
        pre ++ [RAction.saveNew
          (runReconcile calendar_id ce ci true disk events remote0 ok).newCache] ∧
      ∀ c : Cache, RAction.saveNew c ∉ pre) ∧
    ∀ u o, (u, o) ∈ (runReconcile calendar_id ce ci true disk events remote0 ok).outcomes →
      (o = Outcome.updated ∨ o = Outcome.created) → ok u = false →
      RAction.logError u ∈
        (runReconcile calendar_id ce ci true disk events remote0 ok).actions := by
  obtain ⟨h1, h2, h3⟩ := runReconcile_spec calendar_id ce ci disk events remote0 ok
  refine ⟨h1, h2, h3, ?_⟩
  unfold runReconcile
  cases hrd : read_cache_file ce ci (cacheFileName calendar_id) disk with
  | none =>
    simp only [hrd]
    intro u o hmem himp hok
    set s0 : RunState :=
      ⟨[], [], ([] : Cache).map Prod.fst, remote0,
        [RAction.readCache, RAction.writeCacheEmpty], []⟩ with hs0
    set s1 := events.foldl (stepEvent calendar_id [] ok) s0 with hs1
    obtain ⟨_, _, hout, la, hla, _⟩ := deleteStale_frame s1
    have hbase := foldStep_logging calendar_id [] ok events s0
      (fun u o hmem2 _ _ => by simp [hs0] at hmem2)
    have hmem1 : (u, o) ∈ s1.outcomes := by
      simpa [hout] using hmem
    have hlog := hbase u o hmem1 himp hok
    have : RAction.logError u ∈ (deleteStale s1).actions := by
      rw [hla]
      exact List.mem_append_left _ hlog
    exact List.mem_append_left _ this
  | some oc =>
    simp only [hrd]
    intro u o hmem himp hok
    set s0 : RunState :=
      ⟨[], [], oc.map Prod.fst, remote0, [RAction.readCache], []⟩ with hs0
    set s1 := events.foldl (stepEvent calendar_id oc ok) s0 with hs1
    obtain ⟨_, _, hout, la, hla, _⟩ := deleteStale_frame s1
    have hbase := foldStep_logging calendar_id oc ok events s0
      (fun u o hmem2 _ _ => by simp [hs0] at hmem2)
    have hmem1 : (u, o) ∈ s1.outcomes := by
      simpa [hout] using hmem
    have hlog := hbase u o hmem1 himp hok
    have : RAction.logError u ∈ (deleteStale s1).actions := by
      rw [hla]
      exact List.mem_append_left _ hlog
    exact List.mem_append_left _ this

/-- Claim C7 witness: a calendar with one desired event whose remote create
fails; the snapshot still records the event with its desired content, one
outcome is produced, the snapshot is saved once at the end, and the failure
is logged. -/
theorem c7_witness :
    ((runReconcile "w7".toList false true true []
        [{ uid := some "u7".toList, title := "T".toList, description := [],
           scheduled := none, duration := none, recurrence_freq := [],
           recurrence_interval := 0, recurrence_count := 0, tags := [] }]
        [] (fun _ => false)).newCache =
      (survivors "w7".toList
        [{ uid := some "u7".toList, title := "T".toList, description := [],
           scheduled := none, duration := none, recurrence_freq := [],
           recurrence_interval := 0, recurrence_count := 0, tags := [] }]).map
        (fun e => (resolveUid "w7".toList e, e.content))) ∧
    RAction.logError "u7".toList ∈
      (runReconcile "w7".toList false true true []
        [{ uid := some "u7".toList, title := "T".toList, description := [],
           scheduled := none, duration := none, recurrence_freq := [],
           recurrence_interval := 0, recurrence_count := 0, tags := [] }]
        [] (fun _ => false)).actions :=
  ⟨(c7_failed_writes_isolated "w7".toList false true [] _ [] (fun _ => false)).1,
   (c7_failed_writes_isolated "w7".toList false true [] _ [] (fun _ => false)).2.2.2
     "u7".toList Outcome.created (by decide) (Or.inr rfl) rfl⟩

lemma mem_insSorted {a b : Str} : ∀ {l : List Str},
    a ∈ insSorted b l ↔ a = b ∨ a ∈ l := by
  intro l
  induction l with
  | nil => simp [insSorted]
  | cons c cs ih =>
    by_cases hle : strLe c b = true
    · simp only [insSorted, if_pos hle, List.mem_cons, ih]
      tauto
    · simp only [insSorted, if_neg hle, List.mem_cons]
      try tauto

lemma mem_sortStr_aux {a : Str} :
    ∀ (l : List Str) (acc : List Str),
    (a ∈ l.foldl (fun acc x => insSorted x acc) acc ↔ a ∈ acc ∨ a ∈ l) := by
  intro l
  induction l with
  | nil => simp
  | cons c cs ih =>
    intro acc
    rw [List.foldl_cons, ih, mem_insSorted]
    simp only [List.mem_cons]
    tauto

lemma mem_sortStr {a : Str} {l : List Str} : a ∈ sortStr l ↔ a ∈ l := by
  unfold sortStr
  rw [mem_sortStr_aux]
  simp

/-! ## Claim C10 amended -/

/-- Claim C10 amended: the derived title is the heading text processed by
clean_up_heading, which walks the TODO-keyword vocabulary in order and, for
each keyword (and then each bracketed priority cookie) that prefixes the
current text, removes every occurrence of it and strips whitespace — so
occurrences elsewhere of a stripping marker are removed too, not preserved;
a heading starting with no keyword and no cookie is returned unchanged; and
when the recognized state is DONE the derived title is prefixed with the
Done: marker while the lowercased state name is added to the tags (as is
any recognized state name). -/
theorem c10_amended_title_and_tags :
    (∀ (node : OrgNode) (sd : OrgDate) (evs : List Event) (ev : Event),
      node.scheduled = some sd → Event.from_org node = Except.ok evs →
      evs.head? = some ev →
      (ev.title = (if node.todo = some ("DONE".toList)
        then "Done: ".toList ++ clean_up_heading_default node.heading
        else clean_up_heading_default node.heading) ∧
       ∀ td, node.todo = some td → lowerStr (pyStrip td) ∈ ev.tags)) ∧
    (∀ h : Str, (∀ kw ∈ DEFAULT_TODO_KEYWORDS, listStartsWith h kw = false) →
      (∀ p ∈ DEFAULT_PRIORITIES,
        listStartsWith h ('[' :: '#' :: (p ++ [']'])) = false) →
      clean_up_heading_default h = h) := by
  constructor
  · intro node sd evs ev hsd hok hhead
    unfold Event.from_org at hok
    rw [hsd] at hok
    cases htodo : node.todo with
    | none =>
      rw [htodo] at hok
      dsimp only at hok
      cases hdd : node.deadline with
      | none =>
        rw [hdd] at hok
        dsimp only at hok
        cases hdur : Event.get_duration sd node.schedRangeDelta node.effort with
        | error e => rw [hdur] at hok; exact absurd hok (by simp)
        | ok dur =>
          rw [hdur] at hok
          dsimp only at hok
          have hevs := Except.ok.inj hok
          rw [← hevs] at hhead
          simp only [List.head?_cons, Option.some.injEq] at hhead
          rw [← hhead]
          refine ⟨by simp, ?_⟩
          intro td htd
          exact absurd htd (by simp)
      | some dd =>
        rw [hdd] at hok
        dsimp only at hok
        cases hdur : Event.get_duration sd node.schedRangeDelta node.effort with
        | error e => rw [hdur] at hok; exact absurd hok (by simp)
        | ok dur =>
          rw [hdur] at hok
          dsimp only at hok
          by_cases hde : orgDateEq sd dd = true
          · rw [if_pos hde] at hok
            have hevs := Except.ok.inj hok
            rw [← hevs] at hhead
            simp only [List.head?_cons, Option.some.injEq] at hhead
            rw [← hhead]
            refine ⟨by simp, ?_⟩
            intro td htd
            exact absurd htd (by simp)
          · rw [if_neg hde] at hok
            cases hdur2 : Event.get_duration dd node.deadlineRangeDelta node.effort with
            | error e => rw [hdur2] at hok; exact absurd hok (by simp)
            | ok dur2 =>
              rw [hdur2] at hok
              dsimp only at hok
              cases hrec : (if dd.hasRepeater then
                  (if sd.hasRepeater then
                     Except.ok (Event.get_recurrence sd.repeater)
                   else Except.error PyError.attributeError)
                 else Except.ok (([] : Str), (0 : Int), (0 : Int))) with
              | error e => rw [hrec] at hok; exact absurd hok (by simp)
              | ok rec2 =>
                rw [hrec] at hok
                dsimp only at hok
                have hevs := Except.ok.inj hok
                rw [← hevs] at hhead
                simp only [List.head?_cons, Option.some.injEq] at hhead
                rw [← hhead]
                refine ⟨by simp, ?_⟩
                intro td htd
                exact absurd htd (by simp)
    | some td0 =>
      rw [htodo] at hok
      dsimp only at hok
      have hmem0 : lowerStr (pyStrip td0) ∈
          node.tags.filter (fun t => t.length > 0) ++ [lowerStr (pyStrip td0)] := by
        simp
      cases hdd : node.deadline with
      | none =>
        rw [hdd] at hok
        dsimp only at hok
        cases hdur : Event.get_duration sd node.schedRangeDelta node.effort with
        | error e => rw [hdur] at hok; exact absurd hok (by simp)
        | ok dur =>
          rw [hdur] at hok
          dsimp only at hok
          have hevs := Except.ok.inj hok
          rw [← hevs] at hhead
          simp only [List.head?_cons, Option.some.injEq] at hhead
          rw [← hhead]
          refine ⟨by simp only [Option.some.injEq], ?_⟩
          intro td htd
          have htd2 : td = td0 := (Option.some.inj htd).symm
          subst htd2
          exact mem_sortStr.mpr hmem0
      | some dd =>
        rw [hdd] at hok
        dsimp only at hok
        cases hdur : Event.get_duration sd node.schedRangeDelta node.effort with
        | error e => rw [hdur] at hok; exact absurd hok (by simp)
        | ok dur =>
          rw [hdur] at hok
          dsimp only at hok
          by_cases hde : orgDateEq sd dd = true
          · rw [if_pos hde] at hok
            have hevs := Except.ok.inj hok
            rw [← hevs] at hhead
            simp only [List.head?_cons, Option.some.injEq] at hhead
            rw [← hhead]
            refine ⟨by simp only [Option.some.injEq], ?_⟩
            intro td htd
            have htd2 : td = td0 := (Option.some.inj htd).symm
            subst htd2
            exact mem_sortStr.mpr hmem0
          · rw [if_neg hde] at hok
            cases hdur2 : Event.get_duration dd node.deadlineRangeDelta node.effort with
            | error e => rw [hdur2] at hok; exact absurd hok (by simp)
            | ok dur2 =>
              rw [hdur2] at hok
              dsimp only at hok
              cases hrec : (if dd.hasRepeater then
                  (if sd.hasRepeater then
                     Except.ok (Event.get_recurrence sd.repeater)
                   else Except.error PyError.attributeError)
                 else Except.ok (([] : Str), (0 : Int), (0 : Int))) with
              | error e => rw [hrec] at hok; exact absurd hok (by simp)
              | ok rec2 =>
                rw [hrec] at hok
                dsimp only at hok
                have hevs := Except.ok.inj hok
                rw [← hevs] at hhead
                simp only [List.head?_cons, Option.some.injEq] at hhead
                rw [← hhead]
                refine ⟨by simp only [Option.some.injEq], ?_⟩
                intro td htd
                have htd2 : td = td0 := (Option.some.inj htd).symm
                subst htd2
                refine mem_sortStr.mpr ?_
                refine List.mem_append_left _ ?_
                exact mem_sortStr.mpr hmem0
  · intro h hkw hpr
    unfold clean_up_heading_default clean_up_heading
    have k1 := hkw ("NEXT".toList) (by simp [DEFAULT_TODO_KEYWORDS])
    have k2 := hkw ("RUNNING".toList) (by simp [DEFAULT_TODO_KEYWORDS])
    have k3 := hkw ("PAUSED".toList) (by simp [DEFAULT_TODO_KEYWORDS])
    have k4 := hkw ("WAIT".toList) (by simp [DEFAULT_TODO_KEYWORDS])
    have k5 := hkw ("CANCELLED".toList) (by simp [DEFAULT_TODO_KEYWORDS])
    have k6 := hkw ("DELEGATED".toList) (by simp [DEFAULT_TODO_KEYWORDS])
    have p1 := hpr ("A".toList) (by simp [DEFAULT_PRIORITIES])
    have p2 := hpr ("B".toList) (by simp [DEFAULT_PRIORITIES])
    have p3 := hpr ("C".toList) (by simp [DEFAULT_PRIORITIES])
    have p4 := hpr ("D".toList) (by simp [DEFAULT_PRIORITIES])
    have p5 := hpr ("E".toList) (by simp [DEFAULT_PRIORITIES])
    have p6 := hpr ("F".toList) (by simp [DEFAULT_PRIORITIES])
    have p7 := hpr ("G".toList) (by simp [DEFAULT_PRIORITIES])
    simp only [DEFAULT_TODO_KEYWORDS, DEFAULT_PRIORITIES, List.foldl_cons,
        List.foldl_nil, k1, k2, k3, k4, k5, k6, p1, p2, p3, p4, p5, p6, p7,
      Bool.false_eq_true, if_false]

/-- Claim C10 amended, witness: a DONE heading whose derived title carries
the Done: marker over the cleaned heading, with the lowercased state name in
the tags. -/
theorem c10_amended_witness :
    c10ev.title = (if c10node.todo = some ("DONE".toList)
      then "Done: ".toList ++ clean_up_heading_default c10node.heading
      else clean_up_heading_default c10node.heading) ∧
    ∀ td, c10node.todo = some td → lowerStr (pyStrip td) ∈ c10ev.tags :=
  (c10_amended_title_and_tags).1 c10node c10sd [c10ev] c10ev rfl (by decide) rfl

lemma char_toNat_injective : Function.Injective Char.toNat := by
  intro a b h
  exact Char.ofNat_toNat a ▸ Char.ofNat_toNat b ▸ congrArg Char.ofNat h

lemma digitChar_inj : ∀ a, a < 10 → ∀ b, b < 10 →
    digitChar a = digitChar b → a = b := by decide

lemma digitChar_ne_nul (n : Nat) : digitChar n ≠ nulChar := by
  unfold digitChar
  split <;> decide

lemma digitChar_ascii (n : Nat) : (digitChar n).toNat < 128 := by
  unfold digitChar
  split <;> decide

lemma hexChar_inj : ∀ a, a < 16 → ∀ b, b < 16 →
    hexChar a = hexChar b → a = b := by decide

lemma pad2_inj {n m : Nat} (hn : n < 100) (hm : m < 100)
    (h : pad2 n = pad2 m) : n = m := by
  unfold pad2 at h
  simp only [List.cons.injEq, and_true] at h
  obtain ⟨h1, h2⟩ := h
  have e1 := digitChar_inj _ (Nat.mod_lt _ (by norm_num)) _
    (Nat.mod_lt _ (by norm_num)) h1
  have e2 := digitChar_inj _ (Nat.mod_lt _ (by norm_num)) _
    (Nat.mod_lt _ (by norm_num)) h2
  omega

lemma pad4_inj {n m : Nat} (hn : n < 10000) (hm : m < 10000)
    (h : pad4 n = pad4 m) : n = m := by
  unfold pad4 at h
  simp only [List.cons.injEq, and_true] at h
  obtain ⟨h1, h2, h3, h4⟩ := h
  have e1 := digitChar_inj _ (Nat.mod_lt _ (by norm_num)) _
    (Nat.mod_lt _ (by norm_num)) h1
  have e2 := digitChar_inj _ (Nat.mod_lt _ (by norm_num)) _
    (Nat.mod_lt _ (by norm_num)) h2
  have e3 := digitChar_inj _ (Nat.mod_lt _ (by norm_num)) _
    (Nat.mod_lt _ (by norm_num)) h3
  have e4 := digitChar_inj _ (Nat.mod_lt _ (by norm_num)) _
    (Nat.mod_lt _ (by norm_num)) h4
  omega

lemma pad2_length (n : Nat) : (pad2 n).length = 2 := rfl

lemma pad4_length (n : Nat) : (pad4 n).length = 4 := rfl

lemma dateStr_length (d : Date) : (dateStr d).length = 10 := by
  simp [dateStr, pad4, pad2]

lemma pad2_ok (n : Nat) : asciiNulFree (pad2 n) := by
  intro c hc
  unfold pad2 at hc
  simp only [List.mem_cons, List.not_mem_nil, or_false] at hc
  rcases hc with h | h <;>
    exact h ▸ ⟨digitChar_ascii _, digitChar_ne_nul _⟩

lemma pad4_ok (n : Nat) : asciiNulFree (pad4 n) := by
  intro c hc
  unfold pad4 at hc
  simp only [List.mem_cons, List.not_mem_nil, or_false] at hc
  rcases hc with h | h | h | h <;>
    exact h ▸ ⟨digitChar_ascii _, digitChar_ne_nul _⟩

lemma asciiNulFree_append {s t : Str} (hs : asciiNulFree s)
    (ht : asciiNulFree t) : asciiNulFree (s ++ t) := by
  intro c hc
  rcases List.mem_append.mp hc with h | h
  · exact hs c h
  · exact ht c h

lemma asciiNulFree_cons {c : Char} {t : Str} (h1 : c.toNat < 128)
    (h2 : c ≠ nulChar) (ht : asciiNulFree t) : asciiNulFree (c :: t) := by
  intro x hx
  rcases List.mem_cons.mp hx with h | h
  · exact h ▸ ⟨h1, h2⟩
  · exact ht x h

lemma dateStr_ok (d : Date) : asciiNulFree (dateStr d) := by
  refine asciiNulFree_append (pad4_ok _) ?_
  refine asciiNulFree_cons (by decide) (by decide) ?_
  refine asciiNulFree_append (pad2_ok _) ?_
  exact asciiNulFree_cons (by decide) (by decide) (pad2_ok _)

lemma schedStr_ok (x : Option Sched) : asciiNulFree (schedStr x) := by
  cases x with
  | none => decide
  | some s =>
    cases s with
    | onDay d => exact dateStr_ok d
    | inst d t =>
      refine asciiNulFree_append (dateStr_ok d) ?_
      refine asciiNulFree_cons (by decide) (by decide) ?_
      refine asciiNulFree_append (pad2_ok _) ?_
      refine asciiNulFree_cons (by decide) (by decide) ?_
      refine asciiNulFree_append (pad2_ok _) ?_
      refine asciiNulFree_cons (by decide) (by decide) ?_
      refine asciiNulFree_cons (by decide) (by decide) ?_
      refine asciiNulFree_cons (by decide) (by decide) ?_
      exact (by decide : asciiNulFree berlinOffsetStr)

lemma natStrAux_ok (fuel : Nat) : ∀ n, asciiNulFree (natStrAux fuel n) := by
  induction fuel with
  | zero => intro n; intro c hc; simp [natStrAux] at hc
  | succ f ih =>
    intro n
    cases n with
    | zero => intro c hc; simp [natStrAux] at hc
    | succ k =>
      refine asciiNulFree_append (ih _) ?_
      intro c hc
      simp only [List.mem_singleton] at hc
      exact hc ▸ ⟨digitChar_ascii _, digitChar_ne_nul _⟩

lemma natStr_ok (n : Nat) : asciiNulFree (natStr n) := by
  unfold natStr
  split
  · decide
  · exact natStrAux_ok n n

lemma intStr_ok (i : Int) : asciiNulFree (intStr i) := by
  unfold intStr
  split
  · exact asciiNulFree_cons (by decide) (by decide) (natStr_ok _)
  · exact natStr_ok _

/-! ## Splitting on the NUL separator is unambiguous for NUL-free fields -/

lemma nullSep_inj :
    ∀ (xs xs2 rest rest2 : Str), nulChar ∉ xs → nulChar ∉ xs2 →
    xs ++ nulChar :: rest = xs2 ++ nulChar :: rest2 →
    xs = xs2 ∧ rest = rest2 := by
  intro xs
  induction xs with
  | nil =>
    intro xs2 rest rest2 _ h2 heq
    cases xs2 with
    | nil => simpa using heq
    | cons b bs =>
      simp only [List.nil_append, List.cons_append, List.cons.injEq] at heq
      exfalso
      exact h2 (heq.1 ▸ List.mem_cons_self b bs)
  | cons a as ih =>
    intro xs2 rest rest2 h1 h2 heq
    cases xs2 with
    | nil =>
      simp only [List.nil_append, List.cons_append, List.cons.injEq] at heq
      exfalso
      exact h1 (heq.1.symm ▸ List.mem_cons_self a as)
    | cons b bs =>
      simp only [List.cons_append, List.cons.injEq] at heq
      obtain ⟨hab, htail⟩ := heq
      have h1b : nulChar ∉ as := fun hm => h1 (List.mem_cons_of_mem a hm)
      have h2b : nulChar ∉ bs := fun hm => h2 (List.mem_cons_of_mem b hm)
      obtain ⟨he, hr⟩ := ih bs rest rest2 h1b h2b htail
      exact ⟨by rw [hab, he], hr⟩

/-! ## Injectivity of the rendered schedule -/

lemma dateStr_inj {d1 d2 : Date}
    (h1 : d1.y < 10000 ∧ d1.mo < 100 ∧ d1.da < 100)
    (h2 : d2.y < 10000 ∧ d2.mo < 100 ∧ d2.da < 100)
    (h : dateStr d1 = dateStr d2) : d1 = d2 := by
  unfold dateStr at h
  obtain ⟨hp4, htail⟩ := List.append_inj h (by rw [pad4_length, pad4_length])
  simp only [List.cons.injEq, true_and] at htail
  obtain ⟨hp2a, htail2⟩ := List.append_inj htail (by rw [pad2_length, pad2_length])
  simp only [List.cons.injEq, true_and] at htail2
  obtain ⟨c1, c2, c3⟩ := h1
  obtain ⟨e1, e2, e3⟩ := h2
  have := pad4_inj c1 e1 hp4
  have := pad2_inj c2 e2 hp2a
  have := pad2_inj c3 e3 htail2
  cases d1
  cases d2
  simp_all

lemma schedStr_length_none : (schedStr none).length = 4 := rfl

lemma schedStr_length_onDay (d : Date) :
    (schedStr (some (Sched.onDay d))).length = 10 := dateStr_length d

lemma schedStr_length_inst (d : Date) (t : DayTime) :
    (schedStr (some (Sched.inst d t))).length = 25 := by
  simp [schedStr, dateStr, pad4, pad2, berlinOffsetStr]

lemma schedStr_inj {a b : Option Sched} (ha : wfSched a) (hb : wfSched b)
    (h : schedStr a = schedStr b) : a = b := by
  have hlen : (schedStr a).length = (schedStr b).length := by rw [h]
  cases a with
  | none =>
    cases b with
    | none => rfl
    | some sb =>
      cases sb with
      | onDay d => rw [schedStr_length_none, schedStr_length_onDay] at hlen; omega
      | inst d t => rw [schedStr_length_none, schedStr_length_inst] at hlen; omega
  | some sa =>
    cases sa with
    | onDay d1 =>
      cases b with
      | none => rw [schedStr_length_none, schedStr_length_onDay] at hlen; omega
      | some sb =>
        cases sb with
        | onDay d2 =>
          unfold schedStr at h
          rw [dateStr_inj ha hb h]
        | inst d2 t2 =>
          rw [schedStr_length_onDay, schedStr_length_inst] at hlen; omega
    | inst d1 t1 =>
      cases b with
      | none => rw [schedStr_length_none, schedStr_length_inst] at hlen; omega
      | some sb =>
        cases sb with
        | onDay d2 =>
          rw [schedStr_length_onDay, schedStr_length_inst] at hlen; omega
        | inst d2 t2 =>
          unfold schedStr at h
          obtain ⟨ha1, ha2, ha3, ha4, ha5⟩ := ha
          obtain ⟨hb1, hb2, hb3, hb4, hb5⟩ := hb
          obtain ⟨hdate, htail⟩ := List.append_inj h
            (by rw [dateStr_length, dateStr_length])
          simp only [List.cons.injEq, true_and] at htail
          obtain ⟨hh, htail2⟩ := List.append_inj htail
            (by rw [pad2_length, pad2_length])
          simp only [List.cons.injEq, true_and] at htail2
          obtain ⟨hmi, _⟩ := List.append_inj htail2
            (by rw [pad2_length, pad2_length])
          have hd := dateStr_inj ⟨ha1, ha2, ha3⟩ ⟨hb1, hb2, hb3⟩ hdate
          have h1 := pad2_inj ha4 hb4 hh
          have h2 := pad2_inj ha5 hb5 hmi
          cases t1
          cases t2
          simp_all

/-! ## Injectivity of the UUID string form -/

lemma hexPad_length : ∀ (w n : Nat), (hexPad w n).length = w := by
  intro w
  induction w with
  | zero => intro n; rfl
  | succ k ih =>
    intro n
    simp [hexPad, ih]

lemma hexPad_inj : ∀ (w : Nat) (n m : Nat), n < 16 ^ w → m < 16 ^ w →
    hexPad w n = hexPad w m → n = m := by
  intro w
  induction w with
  | zero =>
    intro n m hn hm _
    simp only [pow_zero, Nat.lt_one_iff] at hn hm
    rw [hn, hm]
  | succ k ih =>
    intro n m hn hm h
    unfold hexPad at h
    obtain ⟨hhi, hlo⟩ := List.append_inj h (by rw [hexPad_length, hexPad_length])
    have hdivn : n / 16 < 16 ^ k := by
      apply Nat.div_lt_of_lt_mul
      rw [mul_comm]
      exact (pow_succ 16 k) ▸ hn
    have hdivm : m / 16 < 16 ^ k := by
      apply Nat.div_lt_of_lt_mul
      rw [mul_comm]
      exact (pow_succ 16 k) ▸ hm
    have e1 := ih (n / 16) (m / 16) hdivn hdivm hhi
    simp only [List.cons.injEq, and_true] at hlo
    have e2 := hexChar_inj _ (Nat.mod_lt _ (by norm_num)) _
      (Nat.mod_lt _ (by norm_num)) hlo
    omega

lemma drop_take_shift (a : Str) (i j : Nat) :
    a.drop i = (a.drop i).take j ++ a.drop (i + j) := by
  conv_lhs => rw [← List.take_append_drop j (a.drop i)]
  rw [List.drop_drop]

lemma take_drop_decomp (a : Str) : a = a.take 8 ++ ((a.drop 8).take 4
    ++ ((a.drop 12).take 4 ++ ((a.drop 16).take 4 ++ a.drop 20))) := by
  have s1 : a.drop 8 = (a.drop 8).take 4 ++ a.drop 12 := by
    conv_lhs => rw [drop_take_shift a 8 4]
  have s2 : a.drop 12 = (a.drop 12).take 4 ++ a.drop 16 := by
    conv_lhs => rw [drop_take_shift a 12 4]
  have s3 : a.drop 16 = (a.drop 16).take 4 ++ a.drop 20 := by
    conv_lhs => rw [drop_take_shift a 16 4]
  conv_lhs => rw [← List.take_append_drop 8 a, s1, s2, s3]

lemma segments_ext {a b : Str} (h1 : a.take 8 = b.take 8)
    (h2 : (a.drop 8).take 4 = (b.drop 8).take 4)
    (h3 : (a.drop 12).take 4 = (b.drop 12).take 4)
    (h4 : (a.drop 16).take 4 = (b.drop 16).take 4)
    (h5 : a.drop 20 = b.drop 20) : a = b := by
  conv_lhs => rw [take_drop_decomp a]
  conv_rhs => rw [take_drop_decomp b]
  rw [h1, h2, h3, h4, h5]

lemma uuidStr_inj {n m : Nat} (hn : n < 2 ^ 128) (hm : m < 2 ^ 128)
    (h : uuidStr n = uuidStr m) : n = m := by
  unfold uuidStr at h
  dsimp only at h
  have hl : ∀ k, (hexPad 32 k).length = 32 := fun k => hexPad_length 32 k
  obtain ⟨hp3, hd4⟩ := List.append_inj h
    (by simp only [List.length_append, List.length_cons, List.length_take,
      List.length_drop, hl])
  obtain ⟨hp2, hd3⟩ := List.append_inj hp3
    (by simp only [List.length_append, List.length_cons, List.length_take,
      List.length_drop, hl])
  obtain ⟨hp1, hd2⟩ := List.append_inj hp2
    (by simp only [List.length_append, List.length_cons, List.length_take,
      List.length_drop, hl])
  obtain ⟨h1, hd1⟩ := List.append_inj hp1
    (by simp only [List.length_take, hl])
  simp only [List.cons.injEq, true_and] at hd1 hd2 hd3 hd4
  have hfull : hexPad 32 n = hexPad 32 m :=
    segments_ext h1 hd1 hd2 hd3 hd4
  have h128 : (16 : Nat) ^ 32 = 2 ^ 128 := by norm_num
  exact hexPad_inj 32 n m (h128 ▸ hn) (h128 ▸ hm) hfull

/-! ## The masked and version-stamped integer stays below 2^128 -/

lemma setVariant_lt {x : Nat} (hx : x < 2 ^ 128) : setVariant x < 2 ^ 128 := by
  unfold setVariant
  have h1 : x % 2 ^ 62 < 2 ^ 62 := Nat.mod_lt _ (by positivity)
  have h2 : x / 2 ^ 64 < 2 ^ 64 := by
    apply Nat.div_lt_of_lt_mul
    calc x < 2 ^ 128 := hx
    _ = 2 ^ 64 * 2 ^ 64 := by norm_num
  have h3 : x / 2 ^ 64 * 2 ^ 64 ≤ (2 ^ 64 - 1) * 2 ^ 64 :=
    Nat.mul_le_mul_right _ (by omega)
  have h4 : (2 ^ 64 - 1) * 2 ^ 64 = 2 ^ 128 - 2 ^ 64 := by norm_num
  have h5 : (2 : Nat) ^ 62 + 2 ^ 63 + (2 ^ 128 - 2 ^ 64) < 2 ^ 128 := by norm_num
  omega

lemma setVersion4_lt {x : Nat} (hx : x < 2 ^ 128) : setVersion4 x < 2 ^ 128 := by
  unfold setVersion4
  have h1 : x % 2 ^ 76 < 2 ^ 76 := Nat.mod_lt _ (by positivity)
  have h2 : x / 2 ^ 80 < 2 ^ 48 := by
    apply Nat.div_lt_of_lt_mul
    calc x < 2 ^ 128 := hx
    _ = 2 ^ 48 * 2 ^ 80 := by norm_num
  have h3 : x / 2 ^ 80 * 2 ^ 80 ≤ (2 ^ 48 - 1) * 2 ^ 80 :=
    Nat.mul_le_mul_right _ (by omega)
  have h4 : ((2 : Nat) ^ 48 - 1) * 2 ^ 80 = 2 ^ 128 - 2 ^ 80 := by norm_num
  have h5 : (2 : Nat) ^ 76 + 4 * 2 ^ 76 + (2 ^ 128 - 2 ^ 80) < 2 ^ 128 := by norm_num
  omega

lemma uuidInt_lt {x : Nat} (hx : x < 2 ^ 128) : uuidInt x < 2 ^ 128 :=
  setVersion4_lt (setVariant_lt hx)

/-! ## UTF-8 on ASCII text is the code points, injectively -/

lemma utf8Bytes_ascii {s : Str} (h : ∀ c ∈ s, c.toNat < 128) :
    utf8Bytes s = s.map Char.toNat := by
  induction s with
  | nil => rfl
  | cons c cs ih =>
    have hc : c.toNat < 128 := h c (List.mem_cons_self c cs)
    have hcs : ∀ x ∈ cs, x.toNat < 128 :=
      fun x hx => h x (List.mem_cons_of_mem c hx)
    unfold utf8Bytes
    dsimp only
    rw [if_pos hc, ih hcs]
    rfl

/-! ## C4 : the synthesized identifier -/

lemma land_mask_128 (x : Nat) : Nat.land x (2 ^ 128 - 1) = x % 2 ^ 128 :=
  Nat.and_pow_two_sub_one_eq_mod x 128

lemma resolveUid_none {calId : Str} {e : Event} (h : e.uid = none) :
    resolveUid calId e = synthUid calId e := by
  unfold resolveUid
  rw [h]

lemma ascii_sep_append {A B : Str} (hA : ∀ c ∈ A, c.toNat < 128)
    (hB : ∀ c ∈ B, c.toNat < 128) : ∀ c ∈ A ++ nulChar :: B, c.toNat < 128 := by
  intro c hc
  rcases List.mem_append.mp hc with h | h
  · exact hA c h
  · rcases List.mem_cons.mp h with h | h
    · rw [h]; decide
    · exact hB c h

lemma hashInputStr_ascii {calId : Str} {e : Event} (hcal : asciiNulFree calId)
    (ht : asciiNulFree e.title) (hf : asciiNulFree e.recurrence_freq) :
    ∀ c ∈ hashInputStr calId e, c.toNat < 128 := by
  have a1 : ∀ {s : Str}, asciiNulFree s → ∀ c ∈ s, c.toNat < 128 :=
    fun hs c hc => (hs c hc).1
  intro c hc
  unfold hashInputStr at hc
  exact ascii_sep_append (a1 hcal) (ascii_sep_append (a1 ht)
    (ascii_sep_append (a1 (schedStr_ok _)) (ascii_sep_append (a1 hf)
    (ascii_sep_append (a1 (intStr_ok _)) (a1 (intStr_ok _)))))) c hc

lemma hashInput_recovers {calId : Str} {e1 e2 : Event}
    (hcal : asciiNulFree calId) (ht1 : asciiNulFree e1.title)
    (ht2 : asciiNulFree e2.title) (hw1 : wfSched e1.scheduled)
    (hw2 : wfSched e2.scheduled)
    (h : hashInputStr calId e1 = hashInputStr calId e2) :
    e1.title = e2.title ∧ e1.scheduled = e2.scheduled := by
  have nm : ∀ {s : Str}, asciiNulFree s → nulChar ∉ s :=
    fun hs hm => ((hs _ hm).2) rfl
  unfold hashInputStr at h
  obtain ⟨_, h2⟩ := nullSep_inj _ _ _ _ (nm hcal) (nm hcal) h
  obtain ⟨hteq, h3⟩ := nullSep_inj _ _ _ _ (nm ht1) (nm ht2) h2
  obtain ⟨hseq, _⟩ :=
    nullSep_inj _ _ _ _ (nm (schedStr_ok _)) (nm (schedStr_ok _)) h3
  exact ⟨hteq, schedStr_inj hw1 hw2 hseq⟩

lemma utf8Bytes_inj_ascii {s t : Str} (hs : ∀ c ∈ s, c.toNat < 128)
    (ht : ∀ c ∈ t, c.toNat < 128) (h : utf8Bytes s = utf8Bytes t) : s = t := by
  rw [utf8Bytes_ascii hs, utf8Bytes_ascii ht] at h
  exact (List.map_injective_iff.mpr char_toNat_injective) h

/-- C4: an Event with no explicit identifier gets the UUID string built from
the low 128 bits of the SHA-256 of the NUL-separated tuple (calendar id,
title, scheduled, recurrence frequency, interval, count); the identifier
depends only on those six inputs, so it is unchanged when description or
tags change, and when the title or the schedule differs (printable fields,
recurrence inputs equal) the hash input and its UTF-8 encoding differ, so
the identifiers differ unless the stamped low-128-bit digests collide. -/
theorem c4_synth_identity (calId : Str) (e1 e2 : Event)
    (h1 : e1.uid = none) (h2 : e2.uid = none) :
    resolveUid calId e1
      = uuidStr (uuidInt (sha256Int (utf8Bytes (hashInputStr calId e1)) % 2 ^ 128))
    ∧ (e1.title = e2.title → e1.scheduled = e2.scheduled →
       e1.recurrence_freq = e2.recurrence_freq →
       e1.recurrence_interval = e2.recurrence_interval →
       e1.recurrence_count = e2.recurrence_count →
       resolveUid calId e1 = resolveUid calId e2)
    ∧ (asciiNulFree calId → asciiNulFree e1.title → asciiNulFree e2.title →
       asciiNulFree e1.recurrence_freq → asciiNulFree e2.recurrence_freq →
       wfSched e1.scheduled → wfSched e2.scheduled →
       e1.recurrence_freq = e2.recurrence_freq →
       e1.recurrence_interval = e2.recurrence_interval →
       e1.recurrence_count = e2.recurrence_count →
       (e1.title ≠ e2.title ∨ e1.scheduled ≠ e2.scheduled) →
       hashInputStr calId e1 ≠ hashInputStr calId e2
       ∧ utf8Bytes (hashInputStr calId e1) ≠ utf8Bytes (hashInputStr calId e2)
       ∧ (resolveUid calId e1 ≠ resolveUid calId e2
          ∨ uuidInt (sha256Int (utf8Bytes (hashInputStr calId e1)) % 2 ^ 128)
            = uuidInt (sha256Int (utf8Bytes (hashInputStr calId e2)) % 2 ^ 128))) := by
  refine ⟨?_, ?_, ?_⟩
  · rw [resolveUid_none h1]
    unfold synthUid
    rw [land_mask_128]
  · intro ht hs hf hi hc
    rw [resolveUid_none h1, resolveUid_none h2]
    unfold synthUid hashInputStr
    rw [ht, hs, hf, hi, hc]
  · intro hcal ht1 ht2 hf1 hf2 hw1 hw2 hfeq hieq hceq hdiff
    have hne : hashInputStr calId e1 ≠ hashInputStr calId e2 := by
      intro h
      obtain ⟨a, b⟩ := hashInput_recovers hcal ht1 ht2 hw1 hw2 h
      rcases hdiff with d | d
      · exact d a
      · exact d b
    have hbne : utf8Bytes (hashInputStr calId e1)
        ≠ utf8Bytes (hashInputStr calId e2) := by
      intro h
      exact hne (utf8Bytes_inj_ascii (hashInputStr_ascii hcal ht1 hf1)
        (hashInputStr_ascii hcal ht2 hf2) h)
    refine ⟨hne, hbne, ?_⟩
    by_cases hu : resolveUid calId e1 = resolveUid calId e2
    · right
      have e1f : resolveUid calId e1 = uuidStr (uuidInt
          (sha256Int (utf8Bytes (hashInputStr calId e1)) % 2 ^ 128)) := by
        rw [resolveUid_none h1]
        unfold synthUid
        rw [land_mask_128]
      have e2f : resolveUid calId e2 = uuidStr (uuidInt
          (sha256Int (utf8Bytes (hashInputStr calId e2)) % 2 ^ 128)) := by
        rw [resolveUid_none h2]
        unfold synthUid
        rw [land_mask_128]
      rw [e1f, e2f] at hu
      exact uuidStr_inj (uuidInt_lt (Nat.mod_lt _ (by positivity)))
        (uuidInt_lt (Nat.mod_lt _ (by positivity))) hu
    · left
      exact hu

/-- Witness for C4: the theorem applied to two concrete events lacking an
explicit identifier and differing only in title. -/
theorem c4_witness :
    c4e1.uid = none ∧ c4e2.uid = none ∧
    (resolveUid c4cal c4e1
      = uuidStr (uuidInt (sha256Int (utf8Bytes (hashInputStr c4cal c4e1)) % 2 ^ 128))
     ∧ hashInputStr c4cal c4e1 ≠ hashInputStr c4cal c4e2) :=
  ⟨rfl, rfl, (c4_synth_identity c4cal c4e1 c4e2 rfl rfl).1,
    ((c4_synth_identity c4cal c4e1 c4e2 rfl rfl).2.2 (by decide) (by decide)
      (by decide) (by decide) (by decide) (by decide) (by decide) rfl rfl rfl
      (Or.inl (by decide))).1⟩

/-- Claim C2: the claim says a second run over an unchanged outline with a
functioning remote store performs zero create, update and delete calls,
every event resolving to skip-cached or no-op-equal.  This is false of the
code: for an ordinary scheduled heading with no Effort property the derived
Event has duration timedelta(minutes=0), save_to_calendar therefore stores
no DTEND, from_ical reads the duration back as None, compare_with_ical is
False (timedelta(0) is not None), and the loop takes the update branch — a
remote write — on every run; a repeating heading likewise never compares
equal because from_ical reads the RRULE FREQ and INTERVAL values back as
lists, never equal to the stored str and int. -/
theorem c2_second_run_takes_update_branch :
    Event.from_org c2node = Except.ok [c2ev] ∧
    c2ev.duration = some 0 ∧
    (save_to_calendar_rec c2ev).dtendOffset = none ∧
    (Event.from_ical_view (save_to_calendar_rec c2ev)).duration = none ∧
    compare_with_ical c2ev (save_to_calendar_rec c2ev) = false ∧
    remoteFoundBranch c2ev (save_to_calendar_rec c2ev) = Outcome.updated ∧
    Event.from_org c2nodeR = Except.ok [c2evR] ∧
    (save_to_calendar_rec c2evR).dtendOffset = some 30 ∧
    compare_with_ical c2evR (save_to_calendar_rec c2evR) = false ∧
    remoteFoundBranch c2evR (save_to_calendar_rec c2evR) = Outcome.updated := by
  refine ⟨by decide, rfl, rfl, rfl, by decide, by decide, by decide, rfl,
    by decide, by decide⟩
